import Mathlib

/-!
# CodeXL: PRD translation statistics, map keys, Vulkan player, menu actions, display settings

A shallow embedding of the arithmetic and ordering code of
`AMDTCpuProfilingTranslation/src/Windows/PrdTranslator.h`, of the control flow of
`VulkanPlayer.cpp`, `SharedMenuActions.cpp` and `DisplayFilterDlg::onClickOk`. From
`PrdTranslator.h`:

* `PrdTranslationStats::StatValue` and `PrdTranslationStats::operator+=`
  (`unsigned int` fields are natural numbers, every addition reduced modulo `2 ^ 32`);
* the interlocked updates of `StatValue::AtomicAdd`, as atomic steps on a shared cell;
* `PrdTranslator::TimeRange::operator<` and `PidModaddrKey::operator<`, the comparators of
  `PeriodicUserCallStackMap` and `PidModaddrItrMap`.
-/

/-! ## Definitions -/

/-- Number of values of `unsigned int`: arithmetic on the fields wraps modulo this. -/
def UINT_MOD : Nat := 2 ^ 32

/-- Source `PrdTranslationStats::StatValue`: two `unsigned int` fields. -/
structure StatValue where
  value : Nat
  count : Nat
deriving DecidableEq, Repr

namespace StatValue

/-- Constructor `StatValue() : value(0U), count(0U) {}`. -/
def fresh : StatValue := ⟨0, 0⟩

/-- Source `void Add(const StatValue& stat)`: `value += stat.value; count += stat.count;`. -/
def Add (self stat : StatValue) : StatValue :=
  { value := (self.value + stat.value) % UINT_MOD
    count := (self.count + stat.count) % UINT_MOD }

/-- Source `void Add(unsigned int val)`: `value += val; count++;`. -/
def AddVal (self : StatValue) (val : Nat) : StatValue :=
  { value := (self.value + val) % UINT_MOD
    count := (self.count + 1) % UINT_MOD }

/-- Source `StatValue& operator+=(const StatValue& stat)`: `Add(stat); return *this;`. -/
def opAddAssign (self stat : StatValue) : StatValue :=
  self.Add stat

/-- A fresh `StatValue` after `Add(v)` for each `v` of the sequence, in order. -/
def addAll (vs : List Nat) : StatValue :=
  vs.foldl AddVal fresh

end StatValue

/-- The anonymous stage enumeration of `PrdTranslationStats`. -/
def findModuleInfo : Nat := 0
/-- Stage `addWorkingSetModule`. -/
def addWorkingSetModule : Nat := 1
/-- Stage `querySymbolEngine`. -/
def querySymbolEngine : Nat := 2
/-- Stage `analyzeCss`. -/
def analyzeCss : Nat := 3
/-- Stage `analyzeUserCss`. -/
def analyzeUserCss : Nat := 4
/-- Stage `buildCss`. -/
def buildCss : Nat := 5
/-- Stage `traverseCss`. -/
def traverseCss : Nat := 6
/-- Stage `finalizeKernelCss`. -/
def finalizeKernelCss : Nat := 7
/-- Stage `finalizeUserCss`. -/
def finalizeUserCss : Nat := 8
/-- Stage `finalizePartialUserCss`. -/
def finalizePartialUserCss : Nat := 9
/-- Stage `disassemble`. -/
def disassemble : Nat := 10
/-- Stage `mapMemoryUserCss`. -/
def mapMemoryUserCss : Nat := 11
/-- Stage `unmapMemoryUserCss`. -/
def unmapMemoryUserCss : Nat := 12
/-- The enumerator `COUNT_VALUES`, one past the last stage. -/
def COUNT_VALUES : Nat := 13

/-- Source `struct PrdTranslationStats`: `StatValue m_values[COUNT_VALUES];`. -/
structure PrdTranslationStats where
  m_values : Fin COUNT_VALUES → StatValue

namespace PrdTranslationStats

/-- One pass of the loop body `m_values[i] += stats.m_values[i];`. -/
def addStage (stats self : PrdTranslationStats) (i : Fin COUNT_VALUES) : PrdTranslationStats :=
  { m_values := Function.update self.m_values i ((self.m_values i).opAddAssign (stats.m_values i)) }

/-- The state after `a += b`: the object assigned to and the argument, which is taken by
`const` reference and is a second object. -/
structure MergeState where
  self : PrdTranslationStats
  stats : PrdTranslationStats

/-- Source `PrdTranslationStats& operator+=(const PrdTranslationStats& stats)`:
`for (int i = 0; i < COUNT_VALUES; ++i) m_values[i] += stats.m_values[i];`. -/
def opAddAssignState (self stats : PrdTranslationStats) : MergeState :=
  { self := (List.finRange COUNT_VALUES).foldl (addStage stats) self
    stats := stats }

/-- The value of `*this` that `operator+=` returns. -/
def opAddAssign (self stats : PrdTranslationStats) : PrdTranslationStats :=
  (opAddAssignState self stats).self

end PrdTranslationStats

/-! ### Interlocked updates

`AtomicAdd` is two interlocked read-modify-write operations on the two fields. Each
interlocked operation is one indivisible step on the shared `StatValue`; the steps of
different workers may be interleaved in any way, those of one worker stay in program order. -/

/-- The interlocked operations that `AtomicAdd` issues. -/
inductive AtomicOp where
  /-- Call `InterlockedExchangeAdd(reinterpret_cast<long*>(&value), static_cast<long>(v))`. -/
  | exchangeAddValue (v : Nat)
  /-- Call `InterlockedExchangeAdd(reinterpret_cast<long*>(&count), static_cast<long>(c))`. -/
  | exchangeAddCount (c : Nat)
  /-- Call `InterlockedIncrement(reinterpret_cast<long*>(&count))`. -/
  | incrementCount
deriving DecidableEq, Repr

/-- Effect of one interlocked operation on the shared `StatValue` (32-bit wrap-around). -/
def AtomicOp.apply : AtomicOp → StatValue → StatValue
  | .exchangeAddValue v, s => { s with value := (s.value + v) % UINT_MOD }
  | .exchangeAddCount c, s => { s with count := (s.count + c) % UINT_MOD }
  | .incrementCount, s => { s with count := (s.count + 1) % UINT_MOD }

/-- A call of one of the two overloads of `StatValue::AtomicAdd`. -/
inductive AtomicCall where
  /-- Overload `void AtomicAdd(const StatValue& stat)`. -/
  | AtomicAdd (stat : StatValue)
  /-- Overload `void AtomicAdd(unsigned int val)`. -/
  | AtomicAddVal (val : Nat)
deriving DecidableEq, Repr

/-- The interlocked operations of a call, in program order. -/
def AtomicCall.ops : AtomicCall → List AtomicOp
  | .AtomicAdd stat => [.exchangeAddValue stat.value, .exchangeAddCount stat.count]
  | .AtomicAddVal val => [.exchangeAddValue val, .incrementCount]

/-- What a call adds to `value`. -/
def AtomicCall.addedValue : AtomicCall → Nat
  | .AtomicAdd stat => stat.value
  | .AtomicAddVal val => val

/-- What a call adds to `count`: one per `AtomicAdd(unsigned)` call. -/
def AtomicCall.addedCount : AtomicCall → Nat
  | .AtomicAdd stat => stat.count
  | .AtomicAddVal _ => 1

/-- The operations a worker still has to execute, for a worker that issues these calls. -/
def workerOps (calls : List AtomicCall) : List AtomicOp :=
  calls.flatMap AtomicCall.ops

/-- Sum of the values added by all calls of all workers. -/
def totalAddedValue (workers : List (List AtomicCall)) : Nat :=
  (workers.map fun calls => (calls.map AtomicCall.addedValue).sum).sum

/-- Sum of the counts added by all calls of all workers. -/
def totalAddedCount (workers : List (List AtomicCall)) : Nat :=
  (workers.map fun calls => (calls.map AtomicCall.addedCount).sum).sum

/-- Worker `i` executes its next interlocked operation on the shared cell; `none` when there
is no such worker or it has finished. -/
def stepWorker : Nat → List (List AtomicOp) → StatValue → Option (StatValue × List (List AtomicOp))
  | _, [], _ => none
  | 0, [] :: _, _ => none
  | 0, (op :: rest) :: ws, s => some (op.apply s, rest :: ws)
  | i + 1, w :: ws, s =>
    match stepWorker i ws s with
    | none => none
    | some (s', ws') => some (s', w :: ws')

/-- Runs a schedule, a sequence of worker numbers saying whose operation comes next. -/
def runSchedule : List Nat → List (List AtomicOp) → StatValue → Option (StatValue × List (List AtomicOp))
  | [], ws, s => some (s, ws)
  | i :: sched, ws, s =>
    match stepWorker i ws s with
    | none => none
    | some (s', ws') => runSchedule sched ws' s'

/-- The final `StatValue` of a complete interleaving: the schedule is executable and leaves no
worker with a pending operation. -/
def runInterleaving (sched : List Nat) (workers : List (List AtomicCall)) (s : StatValue) :
    Option StatValue :=
  match runSchedule sched (workers.map workerOps) s with
  | none => none
  | some (s', ws') => if ws'.all List.isEmpty then some s' else none

/-- What a pending operation will add to `value`. -/
def AtomicOp.valueDelta : AtomicOp → Nat
  | .exchangeAddValue v => v
  | .exchangeAddCount _ => 0
  | .incrementCount => 0

/-- What a pending operation will add to `count`. -/
def AtomicOp.countDelta : AtomicOp → Nat
  | .exchangeAddValue _ => 0
  | .exchangeAddCount c => c
  | .incrementCount => 1

/-- Sum of `valueDelta` over the pending operations of all workers. -/
def pendingValue (ws : List (List AtomicOp)) : Nat :=
  (ws.map fun w => (w.map AtomicOp.valueDelta).sum).sum

/-- Sum of `countDelta` over the pending operations of all workers. -/
def pendingCount (ws : List (List AtomicOp)) : Nat :=
  (ws.map fun w => (w.map AtomicOp.countDelta).sum).sum

/-! ### Map keys -/

/-- Source `struct PrdTranslator::TimeRange`: two `gtUInt64` time stamps. -/
structure TimeRange where
  m_begin : Nat
  m_end : Nat
deriving DecidableEq, Repr

/-- Source `bool TimeRange::operator<(const TimeRange& range) const`:
`return m_end < range.m_begin;`. -/
def TimeRange.opLt (self range : TimeRange) : Bool :=
  decide (self.m_end < range.m_begin)

/-- A range is well formed when it does not end before it begins. -/
def TimeRange.wellFormed (r : TimeRange) : Prop :=
  r.m_begin ≤ r.m_end

instance (r : TimeRange) : Decidable r.wellFormed :=
  inferInstanceAs (Decidable (r.m_begin ≤ r.m_end))

/-- The point key `TimeRange{t, t}` used to look a time stamp up. -/
def TimeRange.point (t : Nat) : TimeRange :=
  { m_begin := t, m_end := t }

/-- Source `enum UserCallStack::KernelTransaction`. -/
inductive KernelTransaction where
  | KERNEL_TRANSACTION_UNKNOWN
  | KERNEL_TRANSACTION_FALSE
  | KERNEL_TRANSACTION_TRUE
deriving DecidableEq, Repr

/-- Source `struct PrdTranslator::UserCallStack`; the two pointers are kept as addresses. -/
structure UserCallStack where
  m_pSampleSite : Nat
  m_pCallStack : Nat
  m_callStackIndex : Nat
  m_kernelTransaction : KernelTransaction
deriving DecidableEq, Repr

/-- Source `class PidModaddrKey`: a process id and a module load address, both unsigned integers. -/
structure PidModaddrKey where
  pid : Nat
  modLdAddr : Nat
deriving DecidableEq, Repr

/-- Source `bool PidModaddrKey::operator<(const PidModaddrKey& m) const`:
`return (pid < m.pid) || (pid == m.pid && modLdAddr < m.modLdAddr);`. -/
def PidModaddrKey.opLt (self m : PidModaddrKey) : Bool :=
  decide (self.pid < m.pid) || (decide (self.pid = m.pid) && decide (self.modLdAddr < m.modLdAddr))

/-- Modelled from the spec: `gtMap` (`AMDTBaseTools/Include/gtMap.h`, a thin wrapper of
`std::map`) is not among the sources. It is an ordered map with unique keys under the
comparator of its key type; a map is represented by its entries in iteration order. -/
abbrev gtMap (K V : Type) := List (K × V)

/-- Modelled from the spec: the empty map (`gtMap` is not among the sources). -/
def gtMap.empty {K V : Type} : gtMap K V := []

/-- Modelled from the spec: insertion into `gtMap`, which is not among the sources. The
position is the lower bound of the key, the first entry that is not ordered before it; an
entry is added there unless the entry found is not ordered after the key either, in which
case the key counts as present and the map is left as it is. -/
def gtMap.insert {K V : Type} (lt : K → K → Bool) (kv : K × V) : gtMap K V → gtMap K V
  | [] => [kv]
  | e :: rest =>
    if lt e.1 kv.1 then e :: gtMap.insert lt kv rest
    else if lt kv.1 e.1 then kv :: e :: rest
    else e :: rest

/-- Modelled from the spec: lookup in `gtMap`, which is not among the sources. The lower
bound of the key is returned unless the key is ordered before it; not-found is `none`. -/
def gtMap.find {K V : Type} (lt : K → K → Bool) (k : K) : gtMap K V → Option (K × V)
  | [] => none
  | e :: rest =>
    if lt e.1 k then gtMap.find lt k rest
    else if lt k e.1 then none
    else some e

/-- Modelled from the spec: the map obtained from the empty `gtMap` by inserting the given
entries one after the other (`gtMap` is not among the sources). -/
def gtMap.insertAll {K V : Type} (lt : K → K → Bool) (kvs : List (K × V)) : gtMap K V :=
  kvs.foldl (fun m kv => gtMap.insert lt kv m) gtMap.empty

/-- The keys of a map, in iteration order. -/
def gtMap.keys {K V : Type} (m : gtMap K V) : List K :=
  m.map Prod.fst

/-- Source `typedef gtMap<TimeRange, UserCallStack> PeriodicUserCallStackMap;`. -/
abbrev PeriodicUserCallStackMap := gtMap TimeRange UserCallStack

/-- Source `typedef gtMap<PidModaddrKey, NameModuleMap::iterator> PidModaddrItrMap;`, for an
iterator type `V`. -/
abbrev PidModaddrItrMap (V : Type) := gtMap PidModaddrKey V

/-! ### Vulkan capture player

The embedding of `Graphics/Server/CapturePlayer/VulkanPlayer.cpp`. The Vulkan driver is the
environment: a `VulkanDriver` value holds what each call returns in one run. Handles, sizes,
formats and queue indices only flow into the arguments of later calls and are left out; the
extension names array `pExtNames` is a list (the source gives it 64 slots). -/

/-- The C library `strcmp` on the characters of two strings, up to the sign of the result:
zero for equal strings, negative or positive at the first difference. -/
def strcmpChars : List Char → List Char → Int
  | [], [] => 0
  | [], _ :: _ => -1
  | _ :: _, [] => 1
  | a :: s, b :: t => if a = b then strcmpChars s t else if a < b then -1 else 1

/-- The C library `strcmp` on strings. -/
def strcmp (a b : String) : Int :=
  strcmpChars a.data b.data

/-- The result codes of Vulkan calls, as far as the player tells them apart. -/
inductive VkResult where
  | VK_SUCCESS
  | VK_INCOMPLETE
  /-- Any other result code. -/
  | other (code : Int)
deriving DecidableEq, Repr

/-- The extension name macros of the Vulkan headers, which are not part of the sources: they
are parameters of the embedding. -/
structure VulkanNames where
  VK_KHR_SURFACE_EXTENSION_NAME : String
  VK_KHR_WIN32_SURFACE_EXTENSION_NAME : String
  VK_KHR_XCB_SURFACE_EXTENSION_NAME : String
  VK_KHR_SWAPCHAIN_EXTENSION_NAME : String
deriving DecidableEq, Repr

/-- The two build targets selected by `#ifdef WIN32`. -/
inductive BuildTarget where
  | WIN32
  | LINUX
deriving DecidableEq, Repr

/-- Source `VulkanSurfaceXCB::IsSurfaceExtension`:
`if (!strcmp(VK_KHR_XCB_SURFACE_EXTENSION_NAME, extensionName)) return true; return false;`. -/
def VulkanSurfaceXCB.IsSurfaceExtension (names : VulkanNames) (extensionName : String) : Bool :=
  if strcmp names.VK_KHR_XCB_SURFACE_EXTENSION_NAME extensionName = 0 then true else false

/-- Source `VulkanSurfaceXCB::GetSurfaceExtensionName`. -/
def VulkanSurfaceXCB.GetSurfaceExtensionName (names : VulkanNames) : String :=
  names.VK_KHR_XCB_SURFACE_EXTENSION_NAME

/-- The platform surface extension name that `InitializeGraphics` looks for: the Win32 name
under `WIN32`, otherwise the name of the XCB surface helper installed by `InitializeWindow`. -/
def platformSurfaceExtensionName (names : VulkanNames) : BuildTarget → String
  | .WIN32 => names.VK_KHR_WIN32_SURFACE_EXTENSION_NAME
  | .LINUX => VulkanSurfaceXCB.GetSurfaceExtensionName names

/-- The Vulkan calls of `InitializeGraphics` that return a `VkResult`. -/
inductive VkCall where
  | vkEnumerateInstanceExtensionProperties
  | vkCreateInstance
  | vkEnumeratePhysicalDevices
  | vkEnumerateDeviceExtensionProperties
  | CreateSurface
  | vkGetPhysicalDeviceSurfaceSupportKHR
  | vkCreateDevice
  | vkGetPhysicalDeviceSurfaceFormatsKHR
  | vkGetPhysicalDeviceSurfaceCapabilitiesKHR
  | vkGetPhysicalDeviceSurfacePresentModesKHR
  | vkCreateSwapchainKHR
deriving DecidableEq, Repr

/-- What the Vulkan driver returns to the calls of one run of `InitializeGraphics`. -/
structure VulkanDriver where
  /-- Result of the counting call of `vkEnumerateInstanceExtensionProperties`. -/
  instExtCountResult : VkResult
  /-- The `extensionName` fields of `pInstExts[0 .. instExtCount)`. -/
  instExts : List String
  /-- Result of the filling call of `vkEnumerateInstanceExtensionProperties`. -/
  instExtsResult : VkResult
  createInstanceResult : VkResult
  /-- Result of the counting call of `vkEnumeratePhysicalDevices`. -/
  gpuCountResult : VkResult
  gpu_count : Nat
  /-- Result of the filling call of `vkEnumeratePhysicalDevices`. -/
  gpusResult : VkResult
  /-- Result of the counting call of `vkEnumerateDeviceExtensionProperties`. -/
  deviceExtCountResult : VkResult
  /-- The `extensionName` fields of `pDeviceExts[0 .. deviceExtCount)`. -/
  deviceExts : List String
  /-- Result of the filling call of `vkEnumerateDeviceExtensionProperties`. -/
  deviceExtsResult : VkResult
  createSurfaceResult : VkResult
  /-- Results of `vkGetPhysicalDeviceSurfaceSupportKHR`, one per queue family. -/
  surfaceSupportResults : List VkResult
  createDeviceResult : VkResult
  formatCountResult : VkResult
  formatsResult : VkResult
  surfaceCapabilitiesResult : VkResult
  presentModeCountResult : VkResult
  presentModesResult : VkResult
  createSwapchainResult : VkResult
deriving DecidableEq, Repr

/-- The part of the player state that the control flow reads or writes: the member
`m_lastErrorResult` and the field `s_vkState.initComplete`. -/
structure VulkanState where
  m_lastErrorResult : VkResult
  initComplete : Bool
deriving DecidableEq, Repr

/-- The locals of the instance extension scan: the two `VkBool32` flags and the names stored
in `s_vkState.pExtNames[0 .. extCount)`. -/
structure ExtScan where
  surfaceExtFound : Bool
  platformSurfaceExtFound : Bool
  pExtNames : List String
deriving DecidableEq, Repr

/-- The locals before the scan: both flags `0`, `extCount` `0`. -/
def ExtScan.init : ExtScan :=
  { surfaceExtFound := false, platformSurfaceExtFound := false, pExtNames := [] }

/-- The first test of the scan loop body, on `VK_KHR_SURFACE_EXTENSION_NAME`. -/
def scanSurfaceExt (names : VulkanNames) (st : ExtScan) (extensionName : String) : ExtScan :=
  if strcmp names.VK_KHR_SURFACE_EXTENSION_NAME extensionName = 0 then
    { st with surfaceExtFound := true
              pExtNames := st.pExtNames ++ [names.VK_KHR_SURFACE_EXTENSION_NAME] }
  else st

/-- The second test of the scan loop body, on the platform surface extension. -/
def scanPlatformExt (names : VulkanNames) (target : BuildTarget) (st : ExtScan)
    (extensionName : String) : ExtScan :=
  match target with
  | .WIN32 =>
    if strcmp names.VK_KHR_WIN32_SURFACE_EXTENSION_NAME extensionName = 0 then
      { st with platformSurfaceExtFound := true
                pExtNames := st.pExtNames ++ [names.VK_KHR_WIN32_SURFACE_EXTENSION_NAME] }
    else st
  | .LINUX =>
    if VulkanSurfaceXCB.IsSurfaceExtension names extensionName then
      { st with platformSurfaceExtFound := true
                pExtNames := st.pExtNames ++ [VulkanSurfaceXCB.GetSurfaceExtensionName names] }
    else st

/-- One pass of the loop `for (UINT i = 0; i < instExtCount; i++)`. -/
def scanInstExt (names : VulkanNames) (target : BuildTarget) (st : ExtScan)
    (extensionName : String) : ExtScan :=
  scanPlatformExt names target (scanSurfaceExt names st extensionName) extensionName

/-- The device extension loop: the swapchain extension names collected for `vkCreateDevice`. -/
def scanDeviceExts (names : VulkanNames) (deviceExts : List String) : List String :=
  deviceExts.foldl
    (fun acc extensionName =>
      if strcmp names.VK_KHR_SWAPCHAIN_EXTENSION_NAME extensionName = 0 then
        acc ++ [names.VK_KHR_SWAPCHAIN_EXTENSION_NAME]
      else acc)
    []

/-- The running state of `InitializeGraphics`: the value of `m_lastErrorResult` and the calls
made so far, each with the result it returned. -/
structure CallLog where
  m_lastErrorResult : VkResult
  calls : List (VkCall × VkResult)
deriving DecidableEq, Repr

/-- A statement `m_lastErrorResult = call(...);`. -/
def CallLog.assign (log : CallLog) (c : VkCall) (r : VkResult) : CallLog :=
  { m_lastErrorResult := r, calls := log.calls ++ [(c, r)] }

/-- A call whose result is dropped. -/
def CallLog.discard (log : CallLog) (c : VkCall) (r : VkResult) : CallLog :=
  { log with calls := log.calls ++ [(c, r)] }

/-- What `InitializeGraphics` leaves behind. -/
structure InitResult where
  retVal : Bool
  state : VulkanState
  calls : List (VkCall × VkResult)
  /-- The names passed to `vkCreateInstance` and to `vkCreateDevice`, when they are reached. -/
  instanceExtNames : List String
  deviceExtNames : List String
deriving DecidableEq, Repr

/-- The part of `InitializeGraphics` up to the two extension checks: the counting call, and for
a non-zero count the filling call and the scan. -/
def enumerateInstanceExtensions (names : VulkanNames) (target : BuildTarget)
    (drv : VulkanDriver) : CallLog × ExtScan :=
  let log0 : CallLog := { m_lastErrorResult := .VK_INCOMPLETE, calls := [] }
  let log1 := log0.assign .vkEnumerateInstanceExtensionProperties drv.instExtCountResult
  if drv.instExts.length > 0 then
    (log1.assign .vkEnumerateInstanceExtensionProperties drv.instExtsResult,
      drv.instExts.foldl (scanInstExt names target) ExtScan.init)
  else (log1, ExtScan.init)

/-- The part of `InitializeGraphics` after the two extension checks, from `vkCreateInstance`
to `vkCreateSwapchainKHR`, with `CP_ASSERT` compiled out. -/
def createDeviceAndSwapchain (drv : VulkanDriver) (log : CallLog) : CallLog :=
  let log1 := log.assign .vkCreateInstance drv.createInstanceResult
  let log2 := log1.assign .vkEnumeratePhysicalDevices drv.gpuCountResult
  let log3 := if drv.gpu_count > 0 then
      log2.assign .vkEnumeratePhysicalDevices drv.gpusResult
    else log2
  let log4 := log3.assign .vkEnumerateDeviceExtensionProperties drv.deviceExtCountResult
  let log5 := if drv.deviceExts.length > 0 then
      log4.assign .vkEnumerateDeviceExtensionProperties drv.deviceExtsResult
    else log4
  let log6 := log5.assign .CreateSurface drv.createSurfaceResult
  let log7 := drv.surfaceSupportResults.foldl
    (fun l r => l.discard .vkGetPhysicalDeviceSurfaceSupportKHR r) log6
  let log8 := log7.assign .vkCreateDevice drv.createDeviceResult
  let log9 := log8.assign .vkGetPhysicalDeviceSurfaceFormatsKHR drv.formatCountResult
  let log10 := log9.assign .vkGetPhysicalDeviceSurfaceFormatsKHR drv.formatsResult
  let log11 := log10.assign .vkGetPhysicalDeviceSurfaceCapabilitiesKHR
    drv.surfaceCapabilitiesResult
  let log12 := log11.assign .vkGetPhysicalDeviceSurfacePresentModesKHR
    drv.presentModeCountResult
  let log13 := log12.assign .vkGetPhysicalDeviceSurfacePresentModesKHR drv.presentModesResult
  log13.assign .vkCreateSwapchainKHR drv.createSwapchainResult

/-- Source `bool VulkanPlayer::InitializeGraphics()`, with `CP_ASSERT` compiled out as in a
release build. Either extension check that fails returns `false` at once; otherwise the
function runs to its end, sets `s_vkState.initComplete = true` and returns whether
`m_lastErrorResult == VK_SUCCESS`. -/
def InitializeGraphics (names : VulkanNames) (target : BuildTarget) (drv : VulkanDriver)
    (s : VulkanState) : InitResult :=
  let scanned := enumerateInstanceExtensions names target drv
  let log := scanned.1
  let scan := scanned.2
  if !scan.surfaceExtFound then
    { retVal := false
      state := { s with m_lastErrorResult := log.m_lastErrorResult }
      calls := log.calls, instanceExtNames := [], deviceExtNames := [] }
  else if !scan.platformSurfaceExtFound then
    { retVal := false
      state := { s with m_lastErrorResult := log.m_lastErrorResult }
      calls := log.calls, instanceExtNames := [], deviceExtNames := [] }
  else
    let logEnd := createDeviceAndSwapchain drv log
    { retVal := if logEnd.m_lastErrorResult = .VK_SUCCESS then true else false
      state := { m_lastErrorResult := logEnd.m_lastErrorResult, initComplete := true }
      calls := logEnd.calls
      instanceExtNames := scan.pExtNames
      deviceExtNames := scanDeviceExts names drv.deviceExts }

/-- Source `void VulkanPlayer::Destroy()`: `s_vkState.initComplete = false;`, then the
Vulkan objects are destroyed. -/
def Destroy (s : VulkanState) : VulkanState :=
  { s with initComplete := false }

/-- The window messages that `VulkanWindowProc` tells apart. -/
inductive WindowMessage where
  | WM_DESTROY
  | WM_PAINT
  /-- Any other message. -/
  | other (uMsg : Nat)
deriving DecidableEq, Repr

/-- What `VulkanWindowProc` does with a message. -/
inductive WindowEffect where
  | PostQuitMessage (nExitCode : Int)
  | Present
  | DefWindowProc
deriving DecidableEq, Repr

/-- Source `LRESULT CALLBACK VulkanWindowProc(...)` (`WIN32` only): `WM_DESTROY` posts the
quit message and returns; `WM_PAINT` calls `VulkanPlayer::Present()` if
`s_vkState.initComplete`; every message but `WM_DESTROY` goes on to `DefWindowProc`. -/
def VulkanWindowProc (s : VulkanState) : WindowMessage → List WindowEffect
  | .WM_DESTROY => [.PostQuitMessage 0]
  | .WM_PAINT => (if s.initComplete then [.Present] else []) ++ [.DefWindowProc]
  | .other _ => [.DefWindowProc]

/-- The names of the Vulkan headers, for use in examples. -/
def vulkanHeaderNames : VulkanNames :=
  { VK_KHR_SURFACE_EXTENSION_NAME := "VK_KHR_surface"
    VK_KHR_WIN32_SURFACE_EXTENSION_NAME := "VK_KHR_win32_surface"
    VK_KHR_XCB_SURFACE_EXTENSION_NAME := "VK_KHR_xcb_surface"
    VK_KHR_SWAPCHAIN_EXTENSION_NAME := "VK_KHR_swapchain" }

/-- A driver for which every call of `InitializeGraphics` succeeds, on a `WIN32` machine with
one GPU and one queue family. -/
def allSuccessDriver : VulkanDriver :=
  { instExtCountResult := .VK_SUCCESS
    instExts := ["VK_KHR_surface", "VK_KHR_win32_surface", "VK_EXT_debug_report"]
    instExtsResult := .VK_SUCCESS
    createInstanceResult := .VK_SUCCESS
    gpuCountResult := .VK_SUCCESS
    gpu_count := 1
    gpusResult := .VK_SUCCESS
    deviceExtCountResult := .VK_SUCCESS
    deviceExts := ["VK_KHR_swapchain"]
    deviceExtsResult := .VK_SUCCESS
    createSurfaceResult := .VK_SUCCESS
    surfaceSupportResults := [.VK_SUCCESS]
    createDeviceResult := .VK_SUCCESS
    formatCountResult := .VK_SUCCESS
    formatsResult := .VK_SUCCESS
    surfaceCapabilitiesResult := .VK_SUCCESS
    presentModeCountResult := .VK_SUCCESS
    presentModesResult := .VK_SUCCESS
    createSwapchainResult := .VK_SUCCESS }

/-- The state of a player that has not been initialised: `initComplete` is `false` as in
`s_vkState = {}`; `m_lastErrorResult` is overwritten by `InitializeGraphics` before it is
read. -/
def VulkanState.initial : VulkanState :=
  { m_lastErrorResult := .VK_INCOMPLETE, initComplete := false }

/-- A run in which only the filling call of `vkGetPhysicalDeviceSurfacePresentModesKHR` fails
(code `-1`, `VK_ERROR_OUT_OF_HOST_MEMORY`); its output is not used by the calls after it. -/
def presentModesFailDriver : VulkanDriver :=
  { allSuccessDriver with presentModesResult := .other (-1) }

/-- A run in which only `vkCreateSwapchainKHR` fails (code `-3`,
`VK_ERROR_INITIALIZATION_FAILED`). -/
def swapchainFailDriver : VulkanDriver :=
  { allSuccessDriver with createSwapchainResult := .other (-3) }

/-- A run on a machine whose Vulkan installation lacks the Win32 surface extension. -/
def noPlatformSurfaceDriver : VulkanDriver :=
  { allSuccessDriver with instExts := ["VK_KHR_surface", "VK_EXT_debug_report"] }

/-! ### Shared profiling menu actions

The embedding of `AMDTSharedProfiling/src/SharedMenuActions.cpp`. The command ids, the string
constants, `COUNT_OF_STATIC_PM_MENUS`, the accelerator table and the base class method
`actionIndexToCommandId` are declared in headers that are not among the sources: they are
parameters, collected in `MenuEnv`. The profile manager `m_pProfiles` is the environment of
the actions; a `SharedProfileManager` value holds what its queries return. -/

/-- The command ids `ID_PM_*`. -/
structure CommandIds where
  ID_PM_START_PROFILE : Int
  ID_PM_PAUSE_PROFILE : Int
  ID_PM_STOP_PROFILE : Int
  ID_PM_ATTACH_PROFILE : Int
  ID_PM_SELECTED_PROFILE : Int
  ID_PM_PROFILE_SETTINGS_DIALOG : Int
deriving DecidableEq, Repr

/-- The string constants used by the menu actions. -/
structure MenuStrings where
  PM_STR_MENU_START : String
  PM_STR_STATUS_START : String
  PM_STR_MENU_ATTACH : String
  PM_STR_STATUS_ATTACH : String
  PM_STR_PROFILE_MODE_MENU_COMMAND_PREFIX : String
  PM_STR_SWITCH_TO_PROFILE_MODE_MENU_COMMAND_PREFIX : String
  PM_STR_STATUS_SELECT : String
  PM_STR_MENU_SETTINGS : String
  PM_STR_STATUS_SETTINGS : String
  PM_STR_MENU_PAUSE : String
  PM_STR_STATUS_PAUSE : String
  PM_STR_MENU_PAUSE_DATA : String
  PM_STR_STATUS_PAUSE_DATA : String
  PM_STR_MENU_STOP : String
  PM_STR_STATUS_STOP : String
  PM_STR_MENU_SEPARATOR : String
  AF_STR_ProfileMenuString : String
deriving DecidableEq, Repr

/-- The declarations that `SharedMenuActions.cpp` takes from headers and from its base
class. -/
structure MenuEnv where
  ids : CommandIds
  strs : MenuStrings
  COUNT_OF_STATIC_PM_MENUS : Int
  /-- Method `afActionExecutorAbstract::actionIndexToCommandId`. -/
  actionIndexToCommandId : Int → Int
  /-- The table `sCaptionToCaptionsWithAccelerators` once filled. -/
  sCaptionToCaptionsWithAccelerators : String → Option String
  /-- Method `afActionExecutorAbstract::action`: the text of the Qt action, `none` for
  `NULL`. -/
  action : Int → Option String
  /-- Method `gtString::removeChar`. -/
  removeChar : String → Char → String

/-- What an `is...Enabled` query of the profile manager returns, with the values it leaves in
its reference parameters. -/
structure EnableQuery where
  retVal : Bool
  isActionCheckable : Bool
  isActionChecked : Bool
deriving DecidableEq, Repr

/-- The profile manager as the menu actions see it. -/
structure SharedProfileManager where
  profiles : List String
  currentSelection : String
  isStartEnabled : EnableQuery
  isAttachEnabled : EnableQuery
  isProfileModeEnabled : EnableQuery
  isProjectSettingsEnabled : EnableQuery
  isPausedEnabled : EnableQuery
  /-- The value `isPausedEnabled` leaves in `isShown`. -/
  isPausedShown : Bool
  isStopEnabled : EnableQuery
  isProfileEnabled : Int → EnableQuery
  FindStartProfileActionText : String
  selectedSessionTypeName : String
  /-- Whether `afExecutionModeManager::instance().isActiveMode(PM_STR_PROFILE_MODE)`. -/
  isInProfileMode : Bool

/-- Source `SharedMenuActions::populateSupportedCommandIds`: six `push_back` calls on
`m_supportedCommandIds`. -/
def populateSupportedCommandIds (ids : CommandIds) (m_supportedCommandIds : List Int) :
    List Int :=
  m_supportedCommandIds ++
    [ids.ID_PM_START_PROFILE, ids.ID_PM_PAUSE_PROFILE, ids.ID_PM_STOP_PROFILE,
      ids.ID_PM_ATTACH_PROFILE, ids.ID_PM_SELECTED_PROFILE, ids.ID_PM_PROFILE_SETTINGS_DIALOG]

/-- Source `SharedMenuActions::numberActions`:
`return m_pProfiles->profiles().size() + COUNT_OF_STATIC_PM_MENUS;`. -/
def numberActions (env : MenuEnv) (mgr : SharedProfileManager) : Int :=
  (mgr.profiles.length : Int) + env.COUNT_OF_STATIC_PM_MENUS

/-- Source `SharedMenuActions::addAccelerator`: the caption is replaced by its entry in the
table when it has one (`GT_IF_WITH_ASSERT`), and left alone otherwise. -/
def addAccelerator (env : MenuEnv) (caption : String) : String :=
  match env.sCaptionToCaptionsWithAccelerators caption with
  | some commandWithAccelerator => commandWithAccelerator
  | none => caption

/-- The outcome of `actionText`: the return value, the two reference parameters, and the
message of `GT_ASSERT_EX(false, ...)` when a branch with it was reached. -/
structure ActionTextResult where
  retVal : Bool
  caption : String
  tooltip : String
  assertion : Option String
deriving DecidableEq, Repr

/-- Source `bool SharedMenuActions::actionText(int actionIndex, gtString& caption,
gtString& tooltip, gtString& keyboardShortcut)`. -/
def actionText (env : MenuEnv) (mgr : SharedProfileManager) (actionIndex : Int)
    (caption tooltip : String) : ActionTextResult :=
  let maxRange : Int := (mgr.profiles.length : Int) + env.COUNT_OF_STATIC_PM_MENUS
  if actionIndex < env.COUNT_OF_STATIC_PM_MENUS then
    let commandId := env.actionIndexToCommandId actionIndex
    if commandId = env.ids.ID_PM_START_PROFILE then
      { retVal := true, caption := env.strs.PM_STR_MENU_START
        tooltip := env.strs.PM_STR_STATUS_START, assertion := none }
    else if commandId = env.ids.ID_PM_ATTACH_PROFILE then
      { retVal := true, caption := env.strs.PM_STR_MENU_ATTACH
        tooltip := env.strs.PM_STR_STATUS_ATTACH, assertion := none }
    else if commandId = env.ids.ID_PM_SELECTED_PROFILE then
      { retVal := true
        caption := env.strs.PM_STR_PROFILE_MODE_MENU_COMMAND_PREFIX ++ mgr.currentSelection
        tooltip := env.strs.PM_STR_STATUS_SELECT, assertion := none }
    else if commandId = env.ids.ID_PM_PROFILE_SETTINGS_DIALOG then
      { retVal := true, caption := env.strs.PM_STR_MENU_SETTINGS
        tooltip := env.strs.PM_STR_STATUS_SETTINGS, assertion := none }
    else if commandId = env.ids.ID_PM_PAUSE_PROFILE then
      { retVal := true, caption := env.strs.PM_STR_MENU_PAUSE
        tooltip := env.strs.PM_STR_STATUS_PAUSE, assertion := none }
    else if commandId = env.ids.ID_PM_STOP_PROFILE then
      { retVal := true, caption := env.strs.PM_STR_MENU_STOP
        tooltip := env.strs.PM_STR_STATUS_STOP, assertion := none }
    else
      { retVal := false, caption := caption, tooltip := tooltip
        assertion := some "Unsupported application command" }
  else if actionIndex < maxRange then
    let profileIndex : Int := actionIndex - env.COUNT_OF_STATIC_PM_MENUS
    { retVal := true
      caption := addAccelerator env (mgr.profiles.getD profileIndex.toNat "")
      tooltip := "Select a profile", assertion := none }
  else
    { retVal := false, caption := caption, tooltip := tooltip
      assertion := some "Unsupported application command" }

/-- The enumeration `afActionPositionData::afCommandSeparatorType`, as far as it is used. -/
inductive SeparatorType where
  | AF_SEPARATOR_NONE
  | AF_SEPARATOR_BEFORE_COMMAND
deriving DecidableEq, Repr

/-- The fields of `afActionPositionData` that `menuPosition` writes. -/
structure afActionPositionData where
  m_actionSeparatorType : SeparatorType
  m_beforeActionMenuPosition : String
  m_beforeActionText : String
deriving DecidableEq, Repr

/-- The outcome of `menuPosition`. -/
structure MenuPositionResult where
  retVal : String
  positionData : afActionPositionData
  assertion : Option String
deriving DecidableEq, Repr

/-- The assignments shared by the cases of `menuPosition` that place an action before the
settings command of the profile menu. -/
def beforeSettings (env : MenuEnv) (sep : SeparatorType) : MenuPositionResult :=
  { retVal := env.strs.AF_STR_ProfileMenuString
    positionData :=
      { m_actionSeparatorType := sep
        m_beforeActionMenuPosition :=
          env.strs.AF_STR_ProfileMenuString ++ env.strs.PM_STR_MENU_SEPARATOR
        m_beforeActionText := env.strs.PM_STR_MENU_SETTINGS }
    assertion := none }

/-- Source `gtString SharedMenuActions::menuPosition(int actionIndex,
afActionPositionData& positionData)`. -/
def menuPosition (env : MenuEnv) (mgr : SharedProfileManager) (actionIndex : Int)
    (positionData : afActionPositionData) : MenuPositionResult :=
  let pd0 : afActionPositionData :=
    { positionData with m_actionSeparatorType := .AF_SEPARATOR_NONE }
  let maxRange : Int := (mgr.profiles.length : Int) + env.COUNT_OF_STATIC_PM_MENUS
  if actionIndex < env.COUNT_OF_STATIC_PM_MENUS then
    let commandId := env.actionIndexToCommandId actionIndex
    if commandId = env.ids.ID_PM_START_PROFILE ∨ commandId = env.ids.ID_PM_PAUSE_PROFILE ∨
        commandId = env.ids.ID_PM_STOP_PROFILE then
      beforeSettings env .AF_SEPARATOR_NONE
    else if commandId = env.ids.ID_PM_ATTACH_PROFILE then
      beforeSettings env .AF_SEPARATOR_BEFORE_COMMAND
    else if commandId = env.ids.ID_PM_SELECTED_PROFILE then
      beforeSettings env .AF_SEPARATOR_BEFORE_COMMAND
    else if commandId = env.ids.ID_PM_PROFILE_SETTINGS_DIALOG then
      { retVal := env.strs.AF_STR_ProfileMenuString
        positionData := { pd0 with m_actionSeparatorType := .AF_SEPARATOR_BEFORE_COMMAND }
        assertion := none }
    else
      { retVal := "", positionData := pd0
        assertion := some "Unsupported application command" }
  else if actionIndex < maxRange then
    let profileIndex : Int := actionIndex - env.COUNT_OF_STATIC_PM_MENUS
    beforeSettings env
      (if profileIndex = 0 then .AF_SEPARATOR_BEFORE_COMMAND else .AF_SEPARATOR_NONE)
  else
    { retVal := "", positionData := pd0
      assertion := some "Unsupported application command" }

/-- The calls that `handleTrigger` makes on the profile manager. -/
inductive ProfilesCall where
  | onStartAction
  | onInvokeAttachToProcess
  | onSelectProfileMode (flag : Bool)
  | onInvokeProjectSettings
  | onPauseToggle
  | stopCurrentRun
  | updateSelected (selected : String)
deriving DecidableEq, Repr

/-- The outcome of `handleTrigger`. -/
structure TriggerResult where
  calls : List ProfilesCall
  assertion : Option String
deriving DecidableEq, Repr

/-- Source `void SharedMenuActions::handleTrigger(int actionIndex)`. -/
def handleTrigger (env : MenuEnv) (mgr : SharedProfileManager) (actionIndex : Int) :
    TriggerResult :=
  match env.action actionIndex with
  | none => { calls := [], assertion := none }
  | some pActionText =>
    let maxRange : Int := (mgr.profiles.length : Int) + env.COUNT_OF_STATIC_PM_MENUS
    if actionIndex < env.COUNT_OF_STATIC_PM_MENUS then
      let commandId := env.actionIndexToCommandId actionIndex
      if commandId = env.ids.ID_PM_START_PROFILE then
        { calls := [.onStartAction], assertion := none }
      else if commandId = env.ids.ID_PM_ATTACH_PROFILE then
        { calls := [.onInvokeAttachToProcess], assertion := none }
      else if commandId = env.ids.ID_PM_SELECTED_PROFILE then
        { calls := [.onSelectProfileMode false], assertion := none }
      else if commandId = env.ids.ID_PM_PROFILE_SETTINGS_DIALOG then
        { calls := [.onInvokeProjectSettings], assertion := none }
      else if commandId = env.ids.ID_PM_PAUSE_PROFILE then
        { calls := [.onPauseToggle], assertion := none }
      else if commandId = env.ids.ID_PM_STOP_PROFILE then
        { calls := [.stopCurrentRun], assertion := none }
      else
        { calls := [], assertion := some "Unsupported application command" }
    else if actionIndex < maxRange then
      let text :=
        if pActionText.data.contains '&' then env.removeChar pActionText '&' else pActionText
      { calls := [.updateSelected text, .updateSelected text], assertion := none }
    else
      { calls := [], assertion := some "Unsupported application command" }

/-- The setter calls that `handleUiUpdate` makes on the Qt action; `text` and `toolTip` are
`none` when `setText` or `setToolTip` is not called. -/
structure ActionUi where
  enabled : Bool
  checkable : Bool
  checked : Bool
  visible : Bool
  text : Option String
  toolTip : Option String
deriving DecidableEq, Repr

/-- The outcome of `handleUiUpdate`; `ui` is `none` when the Qt action is `NULL`. -/
structure UiUpdateResult where
  ui : Option ActionUi
  assertion : Option String
deriving DecidableEq, Repr

/-- The tail of `handleUiUpdate`: the four state setters, and `setText(actionText)` when
`actionText` is not empty. -/
def applyUi (q : EnableQuery) (isShown : Bool) (actionText : String)
    (text toolTip : Option String) (assertion : Option String) : UiUpdateResult :=
  { ui := some
      { enabled := q.retVal, checkable := q.isActionCheckable, checked := q.isActionChecked
        visible := isShown
        text := if actionText.isEmpty then text else some actionText
        toolTip := toolTip }
    assertion := assertion }

/-- The locals `isActionEnabled(false), isActionChecked(false), isActionCheckable(false)`. -/
def EnableQuery.none : EnableQuery :=
  { retVal := false, isActionCheckable := false, isActionChecked := false }

/-- Source `void SharedMenuActions::handleUiUpdate(int actionIndex)`. -/
def handleUiUpdate (env : MenuEnv) (mgr : SharedProfileManager) (actionIndex : Int) :
    UiUpdateResult :=
  match env.action actionIndex with
  | none => { ui := none, assertion := none }
  | some _ =>
    let maxRange : Int := (mgr.profiles.length : Int) + env.COUNT_OF_STATIC_PM_MENUS
    if actionIndex < env.COUNT_OF_STATIC_PM_MENUS then
      let commandId := env.actionIndexToCommandId actionIndex
      if commandId = env.ids.ID_PM_START_PROFILE then
        applyUi mgr.isStartEnabled true mgr.FindStartProfileActionText none none none
      else if commandId = env.ids.ID_PM_ATTACH_PROFILE then
        applyUi mgr.isAttachEnabled true "" none none none
      else if commandId = env.ids.ID_PM_SELECTED_PROFILE then
        applyUi mgr.isProfileModeEnabled true
          ((if mgr.isInProfileMode then env.strs.PM_STR_PROFILE_MODE_MENU_COMMAND_PREFIX
            else env.strs.PM_STR_SWITCH_TO_PROFILE_MODE_MENU_COMMAND_PREFIX)
            ++ mgr.currentSelection)
          none none none
      else if commandId = env.ids.ID_PM_PROFILE_SETTINGS_DIALOG then
        applyUi mgr.isProjectSettingsEnabled true "" none none none
      else if commandId = env.ids.ID_PM_PAUSE_PROFILE then
        if mgr.selectedSessionTypeName.startsWith "CPU:" then
          applyUi mgr.isPausedEnabled mgr.isPausedShown ""
            (some env.strs.PM_STR_MENU_PAUSE_DATA) (some env.strs.PM_STR_STATUS_PAUSE_DATA) none
        else
          applyUi mgr.isPausedEnabled mgr.isPausedShown ""
            (some env.strs.PM_STR_MENU_PAUSE) (some env.strs.PM_STR_STATUS_PAUSE) none
      else if commandId = env.ids.ID_PM_STOP_PROFILE then
        applyUi mgr.isStopEnabled true "" none none none
      else
        applyUi EnableQuery.none true "" none none (some "Unknown event id")
    else if actionIndex < maxRange then
      applyUi (mgr.isProfileEnabled (actionIndex - env.COUNT_OF_STATIC_PM_MENUS)) true ""
        none none none
    else
      applyUi EnableQuery.none true "" none none (some "Unsupported application command")

/-- A menu environment for examples: six static commands with the ids 1 to 6, in the order of
`populateSupportedCommandIds`, and one caption with an accelerator. -/
def exampleMenuEnv : MenuEnv :=
  { ids :=
      { ID_PM_START_PROFILE := 1, ID_PM_PAUSE_PROFILE := 2, ID_PM_STOP_PROFILE := 3
        ID_PM_ATTACH_PROFILE := 4, ID_PM_SELECTED_PROFILE := 5
        ID_PM_PROFILE_SETTINGS_DIALOG := 6 }
    strs :=
      { PM_STR_MENU_START := "Start", PM_STR_STATUS_START := "Start profiling"
        PM_STR_MENU_ATTACH := "Attach", PM_STR_STATUS_ATTACH := "Attach to process"
        PM_STR_PROFILE_MODE_MENU_COMMAND_PREFIX := "Profile Mode - "
        PM_STR_SWITCH_TO_PROFILE_MODE_MENU_COMMAND_PREFIX := "Switch to Profile Mode - "
        PM_STR_STATUS_SELECT := "Select profile mode"
        PM_STR_MENU_SETTINGS := "Settings", PM_STR_STATUS_SETTINGS := "Profile settings"
        PM_STR_MENU_PAUSE := "Pause", PM_STR_STATUS_PAUSE := "Pause profiling"
        PM_STR_MENU_PAUSE_DATA := "Pause data", PM_STR_STATUS_PAUSE_DATA := "Pause data"
        PM_STR_MENU_STOP := "Stop", PM_STR_STATUS_STOP := "Stop profiling"
        PM_STR_MENU_SEPARATOR := "/", AF_STR_ProfileMenuString := "Profile" }
    COUNT_OF_STATIC_PM_MENUS := 6
    actionIndexToCommandId := fun actionIndex =>
      if 0 ≤ actionIndex ∧ actionIndex < 6 then actionIndex + 1 else 0
    sCaptionToCaptionsWithAccelerators := fun caption =>
      if caption = "Time-based Sampling" then some "&Time-based Sampling" else none
    action := fun _ => some "Time-based &Sampling"
    removeChar := fun text c => String.mk (text.data.filter (· ≠ c)) }

/-- A profile manager for examples, with two profiles. -/
def exampleProfileManager : SharedProfileManager :=
  { profiles := ["Time-based Sampling", "Custom Profile"]
    currentSelection := "Time-based Sampling"
    isStartEnabled := ⟨true, false, false⟩
    isAttachEnabled := ⟨true, false, false⟩
    isProfileModeEnabled := ⟨true, true, false⟩
    isProjectSettingsEnabled := ⟨true, false, false⟩
    isPausedEnabled := ⟨false, true, false⟩
    isPausedShown := true
    isStopEnabled := ⟨false, false, false⟩
    isProfileEnabled := fun _ => ⟨true, true, false⟩
    FindStartProfileActionText := "Start Profiling"
    selectedSessionTypeName := "CPU: Time-based Sampling"
    isInProfileMode := true }

/-! ### Display settings dialog

The embedding of `DisplayFilterDlg::onClickOk` and `DisplayFilterDlg::updateHiddenColumnList`
(`AMDTCpuProfiling/src/DisplayFilterDlg.cpp`). A check box is its checked state, a column
check box its text and its checked state. The widgets made by `initializeLayout` in the
constructor and the display filter on which `onClickOk` calls `SetCoreMask` without a test
are present; the data reader and the session item may be null. Calls on the display filter,
on the message box and on the dialog itself are recorded as effects. -/

/-- Source `const unsigned int MAX_CORES_SUPPORTED = 64;`. -/
def MAX_CORES_SUPPORTED : Nat := 64

/-- The members of `DisplayFilterDlg` that `onClickOk` reads or writes. -/
structure DisplayFilterDlg where
  /-- Whether `m_pProfDataReader.get()` is not null. -/
  m_pProfDataReader : Bool
  /-- Whether `m_pSessionTreeItemData` is not null. -/
  m_pSessionTreeItemData : Bool
  m_noOfCores : Nat
  m_pCheckBoxCore : List Bool
  m_noOfColumn : Nat
  m_pCheckBoxColumns : List (String × Bool)
  m_selectedCounters : List String
  m_notChecked : List String
  m_pCheckBoxSeparateColumnsBy : Bool
  m_pRadioButtonSeparateByCore : Bool
  m_pRadioButtonSeparateByNUMA : Bool
  m_pCheckBoxShowPercentageBars : Bool
  m_pCheckBoxDisplaySystemDLLs : Bool
  m_displayPercentageInColumn : Bool
  m_displaySystemDLLs : Bool
deriving DecidableEq, Repr

/-- The calls that leave the dialog object. -/
inductive DlgEffect where
  | SetCoreMask (mask : Nat)
  | SetSelectedCounterList (names : List String)
  /-- Call `acMessageBox::instance().critical(title, message)`. -/
  | critical (title message : String)
  | SetSeperatedbyCore (flag : Bool)
  | SetSeperatedbyNuma (flag : Bool)
  | setIgnoreSysDLL (flag : Bool)
  | SetReportConfig
  | accept
deriving DecidableEq, Repr

/-- The exceptions of `std::bitset<MAX_CORES_SUPPORTED>`. -/
inductive DlgException where
  /-- Thrown by `coreMask.set(i, true)` for `i >= MAX_CORES_SUPPORTED`. -/
  | out_of_range
  /-- Thrown by `coreMask.to_ulong()` when a set bit does not fit `unsigned long`. -/
  | overflow_error
deriving DecidableEq, Repr

/-- The locals of the core loop: the positions set in `coreMask`, and `atLeastOneCore`. -/
structure CoreScan where
  coreMask : List Nat
  atLeastOneCore : Bool
deriving DecidableEq, Repr

/-- One pass of `for (int i = 0; i < m_noOfCores; ++i)`:
`if (m_pCheckBoxCore[i].isChecked()) { coreMask.set(i, true); atLeastOneCore = true; }`. -/
def coreLoopBody (d : DisplayFilterDlg) (acc : CoreScan) (i : Nat) :
    Except DlgException CoreScan :=
  if d.m_pCheckBoxCore.getD i false then
    if i < MAX_CORES_SUPPORTED then
      .ok { coreMask := acc.coreMask ++ [i], atLeastOneCore := true }
    else .error .out_of_range
  else .ok acc

/-- The core loop over the indices that are still to be visited. -/
def coreLoop (d : DisplayFilterDlg) : List Nat → CoreScan → Except DlgException CoreScan
  | [], acc => .ok acc
  | i :: rest, acc =>
    match coreLoopBody d acc i with
    | .ok acc1 => coreLoop d rest acc1
    | .error e => .error e

/-- Method `std::bitset::to_ulong` for an `unsigned long` of `ulongBits` bits. -/
def to_ulong (ulongBits : Nat) (coreMask : List Nat) : Except DlgException Nat :=
  if coreMask.all (· < ulongBits) then .ok (coreMask.map (2 ^ ·)).sum
  else .error .overflow_error

/-- Source `void DisplayFilterDlg::updateHiddenColumnList()`: the texts of the unchecked
column boxes go to `m_notChecked`, those of the checked ones to the display filter. -/
def updateHiddenColumnList (d : DisplayFilterDlg) : DisplayFilterDlg × List DlgEffect :=
  let boxes := (List.range d.m_noOfColumn).map fun i => d.m_pCheckBoxColumns.getD i ("", false)
  let checkCounterName := (boxes.filter fun b => b.2).map Prod.fst
  let notChecked := (boxes.filter fun b => !b.2).map Prod.fst
  ({ d with m_notChecked := notChecked }, [.SetSelectedCounterList checkCounterName])

/-- The error text for the columns. -/
def columnErrorText : String := "At least one column must be selected to view..."

/-- The error text for the cores. -/
def coreErrorText : String := "At least one core must be selected to view..."

/-- The text `strErrorMessage` built from the two flags. -/
def errorMessage (atLeastOneColumn atLeastOneCore : Bool) : String :=
  let m1 := if !atLeastOneColumn then "" ++ columnErrorText else ""
  if !atLeastOneCore then
    (if m1.length ≠ 0 then m1 ++ "\n" else m1) ++ coreErrorText
  else m1

/-- The part of `onClickOk` after the two checks have passed, up to the end of the guarded
block. -/
def applySettings (target : BuildTarget) (d : DisplayFilterDlg) :
    DisplayFilterDlg × List DlgEffect :=
  let sep : List DlgEffect :=
    if d.m_pCheckBoxSeparateColumnsBy then
      if d.m_pRadioButtonSeparateByCore then [.SetSeperatedbyCore true]
      else
        match target with
        | .WIN32 => if d.m_pRadioButtonSeparateByNUMA then [.SetSeperatedbyNuma true] else []
        | .LINUX => []
    else []
  let d1 := { d with m_displayPercentageInColumn := d.m_pCheckBoxShowPercentageBars
                     m_displaySystemDLLs := d.m_pCheckBoxDisplaySystemDLLs }
  (d1, sep ++ [.setIgnoreSysDLL (!d1.m_displaySystemDLLs)])

/-- The guarded block of `onClickOk` once the core loop has ended and the mask has been
handed to the display filter. -/
def checkAndApply (target : BuildTarget) (d : DisplayFilterDlg) (scan : CoreScan)
    (mask : Nat) : DisplayFilterDlg × List DlgEffect :=
  let d1 :=
    if 0 < d.m_noOfCores ∧ scan.coreMask.length = d.m_noOfCores then
      { d with m_pCheckBoxCore := d.m_pCheckBoxCore.set 0 true }
    else d
  let upd := updateHiddenColumnList d1
  let d2 := upd.1
  let allHidden : Bool := 0 < d2.m_noOfColumn ∧ d2.m_selectedCounters.length = d2.m_noOfColumn
  let d3 :=
    if allHidden then
      { d2 with
          m_pCheckBoxColumns :=
            match d2.m_pCheckBoxColumns with
            | [] => []
            | b :: rest => (b.1, true) :: rest
          m_selectedCounters := [] }
    else d2
  let atLeastOneColumn := !allHidden
  let effects := [DlgEffect.SetCoreMask mask] ++ upd.2
  if !scan.atLeastOneCore || !atLeastOneColumn then
    (d3, effects ++
      [.critical "CodeXL Error" (errorMessage atLeastOneColumn scan.atLeastOneCore)])
  else
    let applied := applySettings target d3
    (applied.1, effects ++ applied.2 ++ [.SetReportConfig, .accept])

/-- Source `void DisplayFilterDlg::onClickOk()`. With a null data reader or session item the
guarded block is skipped and the dialog is accepted; inside the block either check that
fails shows the message box and returns. -/
def onClickOk (target : BuildTarget) (ulongBits : Nat) (d : DisplayFilterDlg) :
    Except DlgException (DisplayFilterDlg × List DlgEffect) :=
  if d.m_pProfDataReader && d.m_pSessionTreeItemData then
    match coreLoop d (List.range d.m_noOfCores) { coreMask := [], atLeastOneCore := false } with
    | .error e => .error e
    | .ok scan =>
      match to_ulong ulongBits scan.coreMask with
      | .error e => .error e
      | .ok mask => .ok (checkAndApply target d scan mask)
  else .ok (d, [.SetReportConfig, .accept])

/-- The effects of a run of `onClickOk`; none are recorded for a run that throws. -/
def effectsOf (r : Except DlgException (DisplayFilterDlg × List DlgEffect)) : List DlgEffect :=
  match r with
  | .ok out => out.2
  | .error _ => []

/-- A dialog for a session with two cores and two columns; the first core is checked and
both column boxes are unchecked. -/
def noColumnDialog : DisplayFilterDlg :=
  { m_pProfDataReader := true
    m_pSessionTreeItemData := true
    m_noOfCores := 2
    m_pCheckBoxCore := [true, false]
    m_noOfColumn := 2
    m_pCheckBoxColumns := [("CPU clocks", false), ("Retired instructions", false)]
    m_selectedCounters := []
    m_notChecked := []
    m_pCheckBoxSeparateColumnsBy := false
    m_pRadioButtonSeparateByCore := false
    m_pRadioButtonSeparateByNUMA := false
    m_pCheckBoxShowPercentageBars := true
    m_pCheckBoxDisplaySystemDLLs := true
    m_displayPercentageInColumn := true
    m_displaySystemDLLs := true }

/-- The same dialog with no core checked and both columns checked. -/
def noCoreDialog : DisplayFilterDlg :=
  { noColumnDialog with
      m_pCheckBoxCore := [false, false]
      m_pCheckBoxColumns := [("CPU clocks", true), ("Retired instructions", true)] }

/-! ## Auxiliary lemmas -/

theorem addStage_fold_apply (stats : PrdTranslationStats) (l : List (Fin COUNT_VALUES))
    (hl : l.Nodup) (self : PrdTranslationStats) (j : Fin COUNT_VALUES) :
    (l.foldl (PrdTranslationStats.addStage stats) self).m_values j =
      if j ∈ l then (self.m_values j).Add (stats.m_values j) else self.m_values j := by
  induction l generalizing self with
  | nil => simp
  | cons i l ih =>
    rw [List.nodup_cons] at hl
    rw [List.foldl_cons, ih hl.2]
    by_cases hji : j = i
    · subst hji
      simp [hl.1, PrdTranslationStats.addStage, StatValue.opAddAssign]
    · by_cases hjl : j ∈ l
      · simp [hjl, hji, PrdTranslationStats.addStage, Function.update_noteq hji]
      · simp [hjl, hji, PrdTranslationStats.addStage, Function.update_noteq hji]

theorem opAddAssign_apply (a b : PrdTranslationStats) (i : Fin COUNT_VALUES) :
    (a.opAddAssign b).m_values i = (a.m_values i).Add (b.m_values i) := by
  unfold PrdTranslationStats.opAddAssign PrdTranslationStats.opAddAssignState
  rw [addStage_fold_apply b _ (List.nodup_finRange _)]
  simp [List.mem_finRange]

theorem StatValue_Add_assoc (a b c : StatValue) : (a.Add b).Add c = a.Add (b.Add c) := by
  simp only [StatValue.Add, StatValue.mk.injEq, UINT_MOD]
  constructor <;> omega

theorem foldl_AddVal (vs : List Nat) (s : StatValue)
    (hv : s.value < UINT_MOD) (hc : s.count < UINT_MOD) :
    vs.foldl StatValue.AddVal s =
      { value := (s.value + vs.sum) % UINT_MOD, count := (s.count + vs.length) % UINT_MOD } := by
  induction vs generalizing s with
  | nil =>
    simp [Nat.mod_eq_of_lt hv, Nat.mod_eq_of_lt hc]
  | cons v vs ih =>
    have h1 : (s.AddVal v).value < UINT_MOD := Nat.mod_lt _ (by decide)
    have h2 : (s.AddVal v).count < UINT_MOD := Nat.mod_lt _ (by decide)
    rw [List.foldl_cons, ih _ h1 h2]
    simp only [StatValue.AddVal, List.sum_cons, List.length_cons, StatValue.mk.injEq, UINT_MOD]
    constructor <;> omega

theorem addAll_eq (vs : List Nat) :
    StatValue.addAll vs = { value := vs.sum % UINT_MOD, count := vs.length % UINT_MOD } := by
  unfold StatValue.addAll
  rw [foldl_AddVal vs StatValue.fresh (by decide) (by decide)]
  simp [StatValue.fresh]

theorem apply_value (op : AtomicOp) (s : StatValue) :
    (op.apply s).value % UINT_MOD = (s.value + op.valueDelta) % UINT_MOD := by
  cases op <;> simp [AtomicOp.apply, AtomicOp.valueDelta]

theorem apply_count (op : AtomicOp) (s : StatValue) :
    (op.apply s).count % UINT_MOD = (s.count + op.countDelta) % UINT_MOD := by
  cases op <;> simp [AtomicOp.apply, AtomicOp.countDelta]

theorem apply_lt (op : AtomicOp) (s : StatValue)
    (hv : s.value < UINT_MOD) (hc : s.count < UINT_MOD) :
    (op.apply s).value < UINT_MOD ∧ (op.apply s).count < UINT_MOD := by
  have hpos : 0 < UINT_MOD := by decide
  cases op <;> simp [AtomicOp.apply, hv, hc, Nat.mod_lt _ hpos]

theorem stepWorker_inv (i : Nat) (ws : List (List AtomicOp)) (s s' : StatValue)
    (ws' : List (List AtomicOp)) (h : stepWorker i ws s = some (s', ws')) :
    (s'.value + pendingValue ws') % UINT_MOD = (s.value + pendingValue ws) % UINT_MOD ∧
    (s'.count + pendingCount ws') % UINT_MOD = (s.count + pendingCount ws) % UINT_MOD ∧
    (s.value < UINT_MOD → s.count < UINT_MOD → s'.value < UINT_MOD ∧ s'.count < UINT_MOD) := by
  induction ws generalizing i s' ws' with
  | nil => simp [stepWorker] at h
  | cons w ws ih =>
    cases i with
    | zero =>
      cases w with
      | nil => simp [stepWorker] at h
      | cons op rest =>
        simp only [stepWorker, Option.some.injEq, Prod.mk.injEq] at h
        obtain ⟨h1, h2⟩ := h
        subst h1 h2
        have hv := apply_value op s
        have hc := apply_count op s
        refine ⟨?_, ?_, apply_lt op s⟩
        · simp only [pendingValue, List.map_cons, List.sum_cons, UINT_MOD] at *
          omega
        · simp only [pendingCount, List.map_cons, List.sum_cons, UINT_MOD] at *
          omega
    | succ i =>
      simp only [stepWorker] at h
      cases hstep : stepWorker i ws s with
      | none => simp [hstep] at h
      | some r =>
        obtain ⟨s1, ws1⟩ := r
        simp only [hstep, Option.some.injEq, Prod.mk.injEq] at h
        obtain ⟨h1, h2⟩ := h
        subst h1 h2
        obtain ⟨hv, hc, hlt⟩ := ih i s1 ws1 hstep
        refine ⟨?_, ?_, hlt⟩
        · simp only [pendingValue, List.map_cons, List.sum_cons, UINT_MOD] at *
          omega
        · simp only [pendingCount, List.map_cons, List.sum_cons, UINT_MOD] at *
          omega

theorem runSchedule_inv (sched : List Nat) (ws : List (List AtomicOp)) (s s' : StatValue)
    (ws' : List (List AtomicOp)) (h : runSchedule sched ws s = some (s', ws')) :
    (s'.value + pendingValue ws') % UINT_MOD = (s.value + pendingValue ws) % UINT_MOD ∧
    (s'.count + pendingCount ws') % UINT_MOD = (s.count + pendingCount ws) % UINT_MOD ∧
    (s.value < UINT_MOD → s.count < UINT_MOD → s'.value < UINT_MOD ∧ s'.count < UINT_MOD) := by
  induction sched generalizing ws s with
  | nil =>
    simp only [runSchedule, Option.some.injEq, Prod.mk.injEq] at h
    obtain ⟨h1, h2⟩ := h
    subst h1 h2
    exact ⟨rfl, rfl, fun hv hc => ⟨hv, hc⟩⟩
  | cons i sched ih =>
    simp only [runSchedule] at h
    cases hstep : stepWorker i ws s with
    | none => simp [hstep] at h
    | some r =>
      obtain ⟨s1, ws1⟩ := r
      simp only [hstep] at h
      obtain ⟨a1, a2, a3⟩ := stepWorker_inv i ws s s1 ws1 hstep
      obtain ⟨b1, b2, b3⟩ := ih ws1 s1 h
      refine ⟨b1.trans a1, b2.trans a2, fun hv hc => ?_⟩
      obtain ⟨c1, c2⟩ := a3 hv hc
      exact b3 c1 c2

theorem pending_of_all_isEmpty (ws : List (List AtomicOp)) (h : ws.all List.isEmpty = true) :
    pendingValue ws = 0 ∧ pendingCount ws = 0 := by
  induction ws with
  | nil => simp [pendingValue, pendingCount]
  | cons w ws ih =>
    simp only [List.all_cons, Bool.and_eq_true] at h
    obtain ⟨hw, hws⟩ := h
    have hnil : w = [] := by simpa [List.isEmpty_iff] using hw
    subst hnil
    obtain ⟨h1, h2⟩ := ih hws
    simp only [pendingValue, pendingCount] at h1 h2 ⊢
    simp [h1, h2]

theorem workerOps_deltas (calls : List AtomicCall) :
    ((workerOps calls).map AtomicOp.valueDelta).sum = (calls.map AtomicCall.addedValue).sum ∧
    ((workerOps calls).map AtomicOp.countDelta).sum = (calls.map AtomicCall.addedCount).sum := by
  induction calls with
  | nil => simp [workerOps]
  | cons c cs ih =>
    obtain ⟨h1, h2⟩ := ih
    simp only [workerOps] at h1 h2 ⊢
    cases c <;>
      simp [AtomicCall.ops, AtomicCall.addedValue, AtomicCall.addedCount,
        AtomicOp.valueDelta, AtomicOp.countDelta, h1, h2]

theorem pending_workerOps (workers : List (List AtomicCall)) :
    pendingValue (workers.map workerOps) = totalAddedValue workers ∧
    pendingCount (workers.map workerOps) = totalAddedCount workers := by
  simp only [pendingValue, pendingCount, totalAddedValue, totalAddedCount, List.map_map]
  constructor
  · congr 1
    exact List.map_congr_left fun w _ => (workerOps_deltas w).1
  · congr 1
    exact List.map_congr_left fun w _ => (workerOps_deltas w).2

theorem gtMap_mem_insert {K V : Type} (lt : K → K → Bool) (kv e : K × V) (m : gtMap K V)
    (h : e ∈ gtMap.insert lt kv m) : e = kv ∨ e ∈ m := by
  induction m with
  | nil => simpa [gtMap.insert] using h
  | cons x rest ih =>
    simp only [gtMap.insert] at h
    split at h
    · rcases List.mem_cons.mp h with h1 | h1
      · exact Or.inr (h1 ▸ List.mem_cons_self _ _)
      · rcases ih h1 with h2 | h2
        · exact Or.inl h2
        · exact Or.inr (List.mem_cons_of_mem _ h2)
    · split at h
      · rcases List.mem_cons.mp h with h1 | h1
        · exact Or.inl h1
        · exact Or.inr h1
      · exact Or.inr h

theorem gtMap_insert_pairwise {K V : Type} (lt : K → K → Bool) (P : K → Prop)
    (htrans : ∀ a b c, P b → lt a b = true → lt b c = true → lt a c = true)
    (kv : K × V) (m : gtMap K V) (hP : ∀ e ∈ m, P e.1)
    (hm : m.Pairwise fun e1 e2 => lt e1.1 e2.1 = true) :
    (gtMap.insert lt kv m).Pairwise fun e1 e2 => lt e1.1 e2.1 = true := by
  induction m with
  | nil => simp [gtMap.insert]
  | cons x rest ih =>
    rw [List.pairwise_cons] at hm
    obtain ⟨hx, hrest⟩ := hm
    simp only [gtMap.insert]
    by_cases h1 : lt x.1 kv.1 = true
    · rw [if_pos h1, List.pairwise_cons]
      refine ⟨fun e he => ?_, ih (fun e he => hP e (List.mem_cons_of_mem _ he)) hrest⟩
      rcases gtMap_mem_insert lt kv e rest he with h2 | h2
      · rw [h2]; exact h1
      · exact hx e h2
    · rw [if_neg h1]
      by_cases h2 : lt kv.1 x.1 = true
      · rw [if_pos h2, List.pairwise_cons]
        refine ⟨fun e he => ?_, List.pairwise_cons.mpr ⟨hx, hrest⟩⟩
        rcases List.mem_cons.mp he with h3 | h3
        · rw [h3]; exact h2
        · exact htrans _ _ _ (hP x (List.mem_cons_self _ _)) h2 (hx e h3)
      · rw [if_neg h2]
        exact List.pairwise_cons.mpr ⟨hx, hrest⟩

theorem gtMap_foldl_insert_inv {K V : Type} (lt : K → K → Bool) (P : K → Prop)
    (htrans : ∀ a b c, P b → lt a b = true → lt b c = true → lt a c = true)
    (kvs : List (K × V)) (hk : ∀ kv ∈ kvs, P kv.1) (m : gtMap K V) (hP : ∀ e ∈ m, P e.1)
    (hm : m.Pairwise fun e1 e2 => lt e1.1 e2.1 = true) :
    (kvs.foldl (fun m kv => gtMap.insert lt kv m) m).Pairwise
        (fun e1 e2 => lt e1.1 e2.1 = true) ∧
      ∀ e ∈ kvs.foldl (fun m kv => gtMap.insert lt kv m) m, P e.1 := by
  induction kvs generalizing m with
  | nil => exact ⟨hm, hP⟩
  | cons kv kvs ih =>
    rw [List.foldl_cons]
    refine ih (fun x hx => hk x (List.mem_cons_of_mem _ hx)) _ (fun e he => ?_)
      (gtMap_insert_pairwise lt P htrans kv m hP hm)
    rcases gtMap_mem_insert lt kv e m he with h1 | h1
    · rw [h1]; exact hk kv (List.mem_cons_self _ _)
    · exact hP e h1

theorem gtMap_keys_insert {K V : Type} (lt : K → K → Bool)
    (heq : ∀ a b, lt a b = false → lt b a = false → a = b)
    (kv : K × V) (m : gtMap K V) (k : K) :
    k ∈ (gtMap.insert lt kv m).keys ↔ k = kv.1 ∨ k ∈ m.keys := by
  induction m with
  | nil => simp [gtMap.insert, gtMap.keys]
  | cons x rest ih =>
    simp only [gtMap.keys] at ih
    simp only [gtMap.insert, gtMap.keys]
    by_cases h1 : lt x.1 kv.1 = true
    · rw [if_pos h1]
      simp only [List.map_cons, List.mem_cons, ih]
      tauto
    · rw [if_neg h1]
      by_cases h2 : lt kv.1 x.1 = true
      · rw [if_pos h2]
        simp only [List.map_cons, List.mem_cons]
      · rw [if_neg h2]
        have hxk : x.1 = kv.1 := heq _ _ (by simpa using h1) (by simpa using h2)
        simp only [List.map_cons, List.mem_cons, hxk]
        tauto

theorem gtMap_keys_foldl_insert {K V : Type} (lt : K → K → Bool)
    (heq : ∀ a b, lt a b = false → lt b a = false → a = b)
    (kvs : List (K × V)) (m : gtMap K V) (k : K) :
    k ∈ (kvs.foldl (fun m kv => gtMap.insert lt kv m) m).keys ↔
      k ∈ kvs.map Prod.fst ∨ k ∈ m.keys := by
  induction kvs generalizing m with
  | nil => simp
  | cons kv kvs ih =>
    rw [List.foldl_cons, ih, gtMap_keys_insert lt heq]
    simp only [List.map_cons, List.mem_cons]
    tauto

theorem TimeRange_opLt_trans (a b c : TimeRange) (hb : b.wellFormed)
    (hab : a.opLt b = true) (hbc : b.opLt c = true) : a.opLt c = true := by
  unfold TimeRange.wellFormed at hb
  simp only [TimeRange.opLt, decide_eq_true_eq] at *
  omega

theorem PidModaddrKey_opLt_iff (a b : PidModaddrKey) :
    a.opLt b = true ↔ (a.pid < b.pid ∨ (a.pid = b.pid ∧ a.modLdAddr < b.modLdAddr)) := by
  simp [PidModaddrKey.opLt]

theorem PidModaddrKey_opLt_trans (a b c : PidModaddrKey)
    (hab : a.opLt b = true) (hbc : b.opLt c = true) : a.opLt c = true := by
  rw [PidModaddrKey_opLt_iff] at *
  omega

theorem PidModaddrKey_eq_of_not_lt (a b : PidModaddrKey)
    (hab : a.opLt b = false) (hba : b.opLt a = false) : a = b := by
  rw [← Bool.not_eq_true, PidModaddrKey_opLt_iff] at hab hba
  cases a
  cases b
  simp only [PidModaddrKey.mk.injEq] at *
  omega

theorem gtMap_find_point_iff {V : Type} (m : gtMap TimeRange V) (t : Nat)
    (hwf : ∀ e ∈ m, e.1.wellFormed)
    (hord : m.Pairwise fun e1 e2 => e1.1.opLt e2.1 = true) (e : TimeRange × V) :
    gtMap.find TimeRange.opLt (TimeRange.point t) m = some e ↔
      (e ∈ m ∧ e.1.m_begin ≤ t ∧ t ≤ e.1.m_end) := by
  induction m with
  | nil => simp [gtMap.find]
  | cons x rest ih =>
    rw [List.pairwise_cons] at hord
    obtain ⟨hx, hrest⟩ := hord
    have hxwf : x.1.m_begin ≤ x.1.m_end := hwf x (List.mem_cons_self _ _)
    have hgt : ∀ y ∈ rest, x.1.m_end < y.1.m_begin := by
      intro y hy
      simpa [TimeRange.opLt] using hx y hy
    have ih2 := ih (fun y hy => hwf y (List.mem_cons_of_mem _ hy)) hrest
    simp only [gtMap.find, TimeRange.opLt, TimeRange.point, decide_eq_true_eq]
    by_cases h1 : x.1.m_end < t
    · rw [if_pos h1]
      simp only [TimeRange.point] at ih2
      rw [ih2, List.mem_cons]
      constructor
      · rintro ⟨h2, h3⟩
        exact ⟨Or.inr h2, h3⟩
      · rintro ⟨h2 | h2, h3, h4⟩
        · subst h2
          omega
        · exact ⟨h2, h3, h4⟩
    · rw [if_neg h1]
      by_cases h2 : t < x.1.m_begin
      · rw [if_pos h2]
        constructor
        · intro h
          cases h
        · rintro ⟨h3, h4, h5⟩
          rcases List.mem_cons.mp h3 with h6 | h6
          · subst h6
            omega
          · have := hgt e h6
            omega
      · rw [if_neg h2, Option.some.injEq]
        constructor
        · intro h
          subst h
          exact ⟨List.mem_cons_self _ _, by omega, by omega⟩
        · rintro ⟨h3, h4, h5⟩
          rcases List.mem_cons.mp h3 with h6 | h6
          · exact h6.symm
          · have := hgt e h6
            omega

theorem runSchedule_head (w : List AtomicOp) (ws : List (List AtomicOp)) (s : StatValue) :
    runSchedule (List.replicate w.length 0) (w :: ws) s =
      some (w.foldl (fun acc op => op.apply acc) s, [] :: ws) := by
  induction w generalizing s with
  | nil => rfl
  | cons op rest ih =>
    simp only [List.length_cons, List.replicate_succ, runSchedule, stepWorker, List.foldl_cons]
    exact ih (op.apply s)

theorem runSchedule_shift (sched : List Nat) (w : List AtomicOp) (ws : List (List AtomicOp))
    (s : StatValue) :
    runSchedule (sched.map (· + 1)) (w :: ws) s =
      match runSchedule sched ws s with
      | none => none
      | some (s', ws') => some (s', w :: ws') := by
  induction sched generalizing ws s with
  | nil => rfl
  | cons i sched ih =>
    simp only [List.map_cons, runSchedule, stepWorker]
    cases hstep : stepWorker i ws s with
    | none => rfl
    | some r =>
      obtain ⟨s1, ws1⟩ := r
      exact ih ws1 s1

theorem runSchedule_append (a b : List Nat) (ws : List (List AtomicOp)) (s : StatValue) :
    runSchedule (a ++ b) ws s =
      match runSchedule a ws s with
      | none => none
      | some (s', ws') => runSchedule b ws' s' := by
  induction a generalizing ws s with
  | nil => rfl
  | cons i a ih =>
    simp only [List.cons_append, runSchedule]
    cases hstep : stepWorker i ws s with
    | none => rfl
    | some r =>
      obtain ⟨s1, ws1⟩ := r
      exact ih ws1 s1

theorem exists_complete_schedule (ws : List (List AtomicOp)) (s : StatValue) :
    ∃ sched s' ws', runSchedule sched ws s = some (s', ws') ∧ ws'.all List.isEmpty = true := by
  induction ws generalizing s with
  | nil => exact ⟨[], s, [], rfl, rfl⟩
  | cons w ws ih =>
    obtain ⟨sched, s', ws', hrun, hall⟩ := ih (w.foldl (fun acc op => op.apply acc) s)
    refine ⟨List.replicate w.length 0 ++ sched.map (· + 1), s', [] :: ws', ?_, ?_⟩
    · rw [runSchedule_append, runSchedule_head]
      simp only []
      rw [runSchedule_shift, hrun]
    · simpa using hall

theorem strcmpChars_eq_zero (a b : List Char) : strcmpChars a b = 0 ↔ a = b := by
  induction a generalizing b with
  | nil => cases b <;> simp [strcmpChars]
  | cons x s ih =>
    cases b with
    | nil => simp [strcmpChars]
    | cons y t =>
      by_cases hxy : x = y
      · simp [strcmpChars, hxy, ih]
      · by_cases hlt : x < y
        · simp [strcmpChars, hxy, hlt]
        · simp [strcmpChars, hxy, hlt]

theorem strcmp_eq_zero (a b : String) : strcmp a b = 0 ↔ a = b := by
  unfold strcmp
  rw [strcmpChars_eq_zero, String.ext_iff]

theorem IsSurfaceExtension_iff (names : VulkanNames) (extensionName : String) :
    VulkanSurfaceXCB.IsSurfaceExtension names extensionName = true ↔
      extensionName = names.VK_KHR_XCB_SURFACE_EXTENSION_NAME := by
  unfold VulkanSurfaceXCB.IsSurfaceExtension
  by_cases h : strcmp names.VK_KHR_XCB_SURFACE_EXTENSION_NAME extensionName = 0
  · simp only [h, if_true, true_iff]
    exact ((strcmp_eq_zero _ _).mp h).symm
  · simp only [h, if_false, Bool.false_eq_true, false_iff]
    exact fun heq => h ((strcmp_eq_zero _ _).mpr heq.symm)

theorem scanInstExt_surface (names : VulkanNames) (target : BuildTarget) (st : ExtScan)
    (e : String) :
    (scanInstExt names target st e).surfaceExtFound =
      (st.surfaceExtFound || decide (e = names.VK_KHR_SURFACE_EXTENSION_NAME)) := by
  have h1 : (scanSurfaceExt names st e).surfaceExtFound =
      (st.surfaceExtFound || decide (e = names.VK_KHR_SURFACE_EXTENSION_NAME)) := by
    unfold scanSurfaceExt
    by_cases h : strcmp names.VK_KHR_SURFACE_EXTENSION_NAME e = 0
    · have he : e = names.VK_KHR_SURFACE_EXTENSION_NAME := ((strcmp_eq_zero _ _).mp h).symm
      rw [if_pos h]
      simp [he]
    · have he : ¬ e = names.VK_KHR_SURFACE_EXTENSION_NAME :=
        fun heq => h ((strcmp_eq_zero _ _).mpr heq.symm)
      rw [if_neg h]
      simp [he]
  rw [← h1]
  unfold scanInstExt scanPlatformExt
  cases target <;> simp only [] <;> split <;> rfl

theorem scanInstExt_platform (names : VulkanNames) (target : BuildTarget) (st : ExtScan)
    (e : String) :
    (scanInstExt names target st e).platformSurfaceExtFound =
      (st.platformSurfaceExtFound ||
        decide (e = platformSurfaceExtensionName names target)) := by
  have h1 : (scanSurfaceExt names st e).platformSurfaceExtFound =
      st.platformSurfaceExtFound := by
    unfold scanSurfaceExt
    split <;> rfl
  unfold scanInstExt scanPlatformExt
  cases target with
  | WIN32 =>
    simp only [platformSurfaceExtensionName]
    by_cases h : strcmp names.VK_KHR_WIN32_SURFACE_EXTENSION_NAME e = 0
    · have he : e = names.VK_KHR_WIN32_SURFACE_EXTENSION_NAME :=
        ((strcmp_eq_zero _ _).mp h).symm
      rw [if_pos h]
      simp [he]
    · have he : ¬ e = names.VK_KHR_WIN32_SURFACE_EXTENSION_NAME :=
        fun heq => h ((strcmp_eq_zero _ _).mpr heq.symm)
      rw [if_neg h]
      simp [he, h1]
  | LINUX =>
    simp only [platformSurfaceExtensionName, VulkanSurfaceXCB.GetSurfaceExtensionName]
    by_cases h : VulkanSurfaceXCB.IsSurfaceExtension names e = true
    · have he := (IsSurfaceExtension_iff names e).mp h
      rw [if_pos h]
      simp [he]
    · have he : ¬ e = names.VK_KHR_XCB_SURFACE_EXTENSION_NAME :=
        fun heq => h ((IsSurfaceExtension_iff names e).mpr heq)
      rw [if_neg h]
      simp [he, h1]

theorem scan_fold_flags (names : VulkanNames) (target : BuildTarget) (l : List String)
    (st : ExtScan) :
    (l.foldl (scanInstExt names target) st).surfaceExtFound =
        (st.surfaceExtFound || decide (names.VK_KHR_SURFACE_EXTENSION_NAME ∈ l)) ∧
      (l.foldl (scanInstExt names target) st).platformSurfaceExtFound =
        (st.platformSurfaceExtFound ||
          decide (platformSurfaceExtensionName names target ∈ l)) := by
  induction l generalizing st with
  | nil => simp
  | cons e l ih =>
    obtain ⟨h1, h2⟩ := ih (scanInstExt names target st e)
    rw [List.foldl_cons, h1, h2, scanInstExt_surface, scanInstExt_platform]
    constructor
    · by_cases he : e = names.VK_KHR_SURFACE_EXTENSION_NAME
      · simp [he]
      · have he2 : ¬ names.VK_KHR_SURFACE_EXTENSION_NAME = e := fun h => he h.symm
        simp [he, he2]
    · by_cases he : e = platformSurfaceExtensionName names target
      · simp [he]
      · have he2 : ¬ platformSurfaceExtensionName names target = e := fun h => he h.symm
        simp [he, he2]

theorem enumerateInstanceExtensions_flags (names : VulkanNames) (target : BuildTarget)
    (drv : VulkanDriver) :
    (enumerateInstanceExtensions names target drv).2.surfaceExtFound =
        decide (names.VK_KHR_SURFACE_EXTENSION_NAME ∈ drv.instExts) ∧
      (enumerateInstanceExtensions names target drv).2.platformSurfaceExtFound =
        decide (platformSurfaceExtensionName names target ∈ drv.instExts) := by
  unfold enumerateInstanceExtensions
  by_cases hlen : drv.instExts.length > 0
  · simp only [hlen, if_true]
    have h := scan_fold_flags names target drv.instExts ExtScan.init
    simpa [ExtScan.init] using h
  · have hnil : drv.instExts = [] := by
      cases hl : drv.instExts with
      | nil => rfl
      | cons a l => simp [hl] at hlen
    simp [hnil, ExtScan.init]

theorem enumerateInstanceExtensions_calls (names : VulkanNames) (target : BuildTarget)
    (drv : VulkanDriver) :
    ∀ c ∈ (enumerateInstanceExtensions names target drv).1.calls,
      c.1 = VkCall.vkEnumerateInstanceExtensionProperties := by
  unfold enumerateInstanceExtensions
  by_cases hlen : drv.instExts.length > 0
  · simp only [hlen, if_true, CallLog.assign]
    intro c hc
    simp only [List.nil_append, List.cons_append, List.mem_cons, List.mem_singleton,
      List.not_mem_nil, or_false] at hc
    rcases hc with h | h <;> rw [h]
  · simp only [hlen, if_false, CallLog.assign]
    intro c hc
    simp only [List.nil_append, List.mem_singleton] at hc
    rw [hc]

theorem createDeviceAndSwapchain_last (drv : VulkanDriver) (log : CallLog) :
    (createDeviceAndSwapchain drv log).m_lastErrorResult = drv.createSwapchainResult := by
  simp [createDeviceAndSwapchain, CallLog.assign]

theorem InitializeGraphics_retVal_iff (names : VulkanNames) (target : BuildTarget)
    (drv : VulkanDriver) (s : VulkanState) :
    (InitializeGraphics names target drv s).retVal = true ↔
      (names.VK_KHR_SURFACE_EXTENSION_NAME ∈ drv.instExts ∧
        platformSurfaceExtensionName names target ∈ drv.instExts ∧
        drv.createSwapchainResult = VkResult.VK_SUCCESS) := by
  obtain ⟨h1, h2⟩ := enumerateInstanceExtensions_flags names target drv
  unfold InitializeGraphics
  simp only [h1, h2, createDeviceAndSwapchain_last]
  by_cases hs : names.VK_KHR_SURFACE_EXTENSION_NAME ∈ drv.instExts
  · by_cases hp : platformSurfaceExtensionName names target ∈ drv.instExts
    · by_cases hr : drv.createSwapchainResult = VkResult.VK_SUCCESS
      · simp [hs, hp, hr]
      · simp [hs, hp, hr]
    · simp [hs, hp]
  · simp [hs]

theorem coreLoop_none_checked (d : DisplayFilterDlg) (l : List Nat) (acc : CoreScan)
    (h : ∀ i ∈ l, d.m_pCheckBoxCore.getD i false = false) :
    coreLoop d l acc = .ok acc := by
  induction l with
  | nil => rfl
  | cons i rest ih =>
    have hi : d.m_pCheckBoxCore.getD i false = false := h i (List.mem_cons_self _ _)
    simp only [coreLoop, coreLoopBody, hi, Bool.false_eq_true, if_false]
    exact ih fun j hj => h j (List.mem_cons_of_mem _ hj)

theorem checkAndApply_no_core (target : BuildTarget) (d : DisplayFilterDlg)
    (scan : CoreScan) (mask : Nat) (h : scan.atLeastOneCore = false) :
    ∃ (d' : DisplayFilterDlg) (names : List String) (atLeastOneColumn : Bool),
      checkAndApply target d scan mask =
        (d', [DlgEffect.SetCoreMask mask, DlgEffect.SetSelectedCounterList names,
          DlgEffect.critical "CodeXL Error" (errorMessage atLeastOneColumn false)]) := by
  simp only [checkAndApply, h, Bool.not_false, Bool.true_or, if_true, updateHiddenColumnList,
    List.singleton_append, List.cons_append, List.nil_append]
  exact ⟨_, _, _, rfl⟩

theorem applySettings_effects (target : BuildTarget) (d : DisplayFilterDlg)
    (title message : String) :
    DlgEffect.critical title message ∉ (applySettings target d).2 := by
  intro he
  cases target <;> cases h1 : d.m_pCheckBoxSeparateColumnsBy <;>
    cases h2 : d.m_pRadioButtonSeparateByCore <;>
    cases h3 : d.m_pRadioButtonSeparateByNUMA <;>
    simp [applySettings, h1, h2, h3] at he

theorem selectedCounters_kept (d : DisplayFilterDlg) (p : Prop) [Decidable p] :
    (updateHiddenColumnList
        (if p then { d with m_pCheckBoxCore := d.m_pCheckBoxCore.set 0 true } else d)).1.m_noOfColumn
      = d.m_noOfColumn ∧
    (updateHiddenColumnList
        (if p then { d with m_pCheckBoxCore := d.m_pCheckBoxCore.set 0 true }
          else d)).1.m_selectedCounters
      = d.m_selectedCounters := by
  by_cases hp : p
  · simp [hp, updateHiddenColumnList]
  · simp [hp, updateHiddenColumnList]

theorem checkAndApply_accepts (target : BuildTarget) (d : DisplayFilterDlg)
    (scan : CoreScan) (mask : Nat) (hcore : scan.atLeastOneCore = true)
    (hsel : d.m_selectedCounters.length ≠ d.m_noOfColumn) :
    DlgEffect.accept ∈ (checkAndApply target d scan mask).2 ∧
    ∀ title message, DlgEffect.critical title message ∉ (checkAndApply target d scan mask).2 := by
  obtain ⟨k1, k2⟩ := selectedCounters_kept d
    (0 < d.m_noOfCores ∧ scan.coreMask.length = d.m_noOfCores)
  have hform : ∃ (dA : DisplayFilterDlg) (names : List String),
      (checkAndApply target d scan mask).2 =
        [DlgEffect.SetCoreMask mask, DlgEffect.SetSelectedCounterList names] ++
          (applySettings target dA).2 ++ [DlgEffect.SetReportConfig, DlgEffect.accept] := by
    simp only [checkAndApply, hcore, k1, k2, hsel, and_false, decide_False, Bool.not_true,
      Bool.not_false, Bool.or_self, Bool.false_eq_true, if_false]
    exact ⟨_, _, rfl⟩
  obtain ⟨dA, names, hA⟩ := hform
  rw [hA]
  constructor
  · simp
  · intro title message hmem
    simp only [List.mem_append, List.mem_cons, List.mem_singleton, List.not_mem_nil,
      or_false] at hmem
    rcases hmem with (h | h) | h
    · rcases h with h | h <;> cases h
    · exact applySettings_effects target dA title message h
    · rcases h with h | h <;> cases h

theorem gtMap_insert_of_equiv {V : Type} (m : gtMap TimeRange V) (kv : TimeRange × V)
    (hwf : ∀ e ∈ m, e.1.wellFormed)
    (hord : m.Pairwise fun e1 e2 => e1.1.opLt e2.1 = true)
    (e : TimeRange × V) (he : e ∈ m)
    (h1 : kv.1.opLt e.1 = false) (h2 : e.1.opLt kv.1 = false) :
    gtMap.insert TimeRange.opLt kv m = m := by
  induction m with
  | nil => cases he
  | cons x rest ih =>
    rw [List.pairwise_cons] at hord
    obtain ⟨hx, hrest⟩ := hord
    simp only [gtMap.insert]
    by_cases hxk : x.1.opLt kv.1 = true
    · rw [if_pos hxk]
      rcases List.mem_cons.mp he with h | h
      · rw [h, hxk] at h2
        cases h2
      · rw [ih (fun y hy => hwf y (List.mem_cons_of_mem _ hy)) hrest h]
    · rw [if_neg hxk]
      by_cases hkx : kv.1.opLt x.1 = true
      · exfalso
        rcases List.mem_cons.mp he with h | h
        · rw [h, hkx] at h1
          cases h1
        · have hlt := TimeRange_opLt_trans kv.1 x.1 e.1 (hwf x (List.mem_cons_self _ _)) hkx
            (hx e h)
          rw [hlt] at h1
          cases h1
      · rw [if_neg hkx]

theorem InitializeGraphics_initComplete (names : VulkanNames) (target : BuildTarget)
    (drv : VulkanDriver) (s : VulkanState)
    (hs : names.VK_KHR_SURFACE_EXTENSION_NAME ∈ drv.instExts)
    (hp : platformSurfaceExtensionName names target ∈ drv.instExts) :
    (InitializeGraphics names target drv s).state.initComplete = true := by
  obtain ⟨h1, h2⟩ := enumerateInstanceExtensions_flags names target drv
  unfold InitializeGraphics
  simp [h1, h2, hs, hp]

theorem StatValue_Add_comm (a b : StatValue) : a.Add b = b.Add a := by
  simp only [StatValue.Add, StatValue.mk.injEq, UINT_MOD]
  constructor <;> omega

/-! ## Claims -/

/-- C1: `PrdTranslationStats::operator+=` sums stage by stage. For all stats `a`, `b` and
every stage index `i < COUNT_VALUES`, after `a += b` the entry `a.m_values[i]` has
`value = (old a.value + b.value) mod 2^32` and `count = (old a.count + b.count) mod 2^32`,
and `b` is unchanged. -/
theorem C1_opAddAssign_stagewise (a b : PrdTranslationStats) :
    (∀ i : Fin COUNT_VALUES,
      ((PrdTranslationStats.opAddAssignState a b).self.m_values i).value =
          ((a.m_values i).value + (b.m_values i).value) % 2 ^ 32 ∧
      ((PrdTranslationStats.opAddAssignState a b).self.m_values i).count =
          ((a.m_values i).count + (b.m_values i).count) % 2 ^ 32) ∧
    (PrdTranslationStats.opAddAssignState a b).stats = b := by
  refine ⟨fun i => ?_, rfl⟩
  have h := opAddAssign_apply a b i
  unfold PrdTranslationStats.opAddAssign at h
  rw [h]
  exact ⟨rfl, rfl⟩

/-- C2: the stats merge is associative. For all `a`, `b`, `c`, `(a += b) += c` equals
`a += (b += c)`, in every stage's value and count (unsigned 32-bit arithmetic). -/
theorem C2_opAddAssign_assoc (a b c : PrdTranslationStats) :
    (a.opAddAssign b).opAddAssign c = a.opAddAssign (b.opAddAssign c) ∧
    ∀ i : Fin COUNT_VALUES,
      (((a.opAddAssign b).opAddAssign c).m_values i).value =
          ((a.opAddAssign (b.opAddAssign c)).m_values i).value ∧
      (((a.opAddAssign b).opAddAssign c).m_values i).count =
          ((a.opAddAssign (b.opAddAssign c)).m_values i).count := by
  have key : ∀ i : Fin COUNT_VALUES,
      ((a.opAddAssign b).opAddAssign c).m_values i =
        (a.opAddAssign (b.opAddAssign c)).m_values i := by
    intro i
    simp only [opAddAssign_apply, StatValue_Add_assoc]
  refine ⟨?_, fun i => ⟨by rw [key i], by rw [key i]⟩⟩
  have hfun : ((a.opAddAssign b).opAddAssign c).m_values =
      (a.opAddAssign (b.opAddAssign c)).m_values := funext key
  cases h1 : (a.opAddAssign b).opAddAssign c
  cases h2 : a.opAddAssign (b.opAddAssign c)
  rw [h1, h2] at hfun
  simpa using hfun

/-- C3: summing worker-local stats into global stats loses nothing. For all sequences `xs`,
`ys` of unsigned values, if `s1` is a fresh `StatValue` after `Add(x)` for each `x` in `xs` and
`s2` a fresh one after `Add(y)` for each `y` in `ys`, then `s1 += s2` equals a fresh `StatValue`
after `Add(v)` for each `v` in `xs` followed by `ys`, in value and in count (mod `2^32`). -/
theorem C3_merge_of_local_sums (xs ys : List Nat) :
    (StatValue.addAll xs).opAddAssign (StatValue.addAll ys) = StatValue.addAll (xs ++ ys) := by
  simp only [addAll_eq, StatValue.opAddAssign, StatValue.Add, List.sum_append,
    List.length_append, StatValue.mk.injEq, UINT_MOD]
  constructor <;> omega

/-- C4: concurrent increments of one `StatValue` lose no update. For every set of `AtomicAdd`
calls issued by several workers on the same `StatValue`, a complete interleaving of their
interlocked operations exists, and under every complete interleaving the final value is the
initial value plus the sum of all added values and the final count is the initial count plus
the sum of all added counts (one per `AtomicAdd(unsigned)` call), mod `2^32`; from a fresh
`StatValue` these are the two sums. -/
theorem C4_atomic_add_no_lost_update (workers : List (List AtomicCall)) (s : StatValue)
    (hv : s.value < 2 ^ 32) (hc : s.count < 2 ^ 32) :
    (∃ sched s', runInterleaving sched workers s = some s') ∧
    ∀ sched s', runInterleaving sched workers s = some s' →
      s'.value = (s.value + totalAddedValue workers) % 2 ^ 32 ∧
      s'.count = (s.count + totalAddedCount workers) % 2 ^ 32 := by
  constructor
  · obtain ⟨sched, s', ws', hrun, hall⟩ := exists_complete_schedule (workers.map workerOps) s
    exact ⟨sched, s', by simp [runInterleaving, hrun, hall]⟩
  · intro sched s' hrun
    unfold runInterleaving at hrun
    cases hr : runSchedule sched (workers.map workerOps) s with
    | none => simp [hr] at hrun
    | some r =>
      obtain ⟨s1, ws1⟩ := r
      simp only [hr] at hrun
      by_cases hall : ws1.all List.isEmpty = true
      · simp only [hall, if_true, Option.some.injEq] at hrun
        subst hrun
        obtain ⟨a1, a2, a3⟩ := runSchedule_inv sched _ s s1 ws1 hr
        obtain ⟨p1, p2⟩ := pending_of_all_isEmpty ws1 hall
        obtain ⟨q1, q2⟩ := pending_workerOps workers
        obtain ⟨l1, l2⟩ := a3 hv hc
        rw [p1, q1] at a1
        rw [p2, q2] at a2
        simp only [UINT_MOD] at a1 a2 l1 l2
        omega
      · simp [hall] at hrun

/-- Witness for C4: two workers, one calling `AtomicAdd(5)` then `AtomicAdd(7)`, the other
`AtomicAdd({4294967295, 2})`, with their operations interleaved. -/
theorem C4_atomic_add_no_lost_update_witness :
    runInterleaving [0, 1, 0, 0, 1, 0]
        [[.AtomicAddVal 5, .AtomicAddVal 7], [.AtomicAdd ⟨4294967295, 2⟩]] StatValue.fresh
      = some ⟨11, 4⟩ ∧
    (⟨11, 4⟩ : StatValue).value =
      (StatValue.fresh.value +
        totalAddedValue [[.AtomicAddVal 5, .AtomicAddVal 7], [.AtomicAdd ⟨4294967295, 2⟩]])
        % 2 ^ 32 ∧
    (⟨11, 4⟩ : StatValue).count =
      (StatValue.fresh.count +
        totalAddedCount [[.AtomicAddVal 5, .AtomicAddVal 7], [.AtomicAdd ⟨4294967295, 2⟩]])
        % 2 ^ 32 :=
  ⟨by decide,
    (C4_atomic_add_no_lost_update _ StatValue.fresh (by decide) (by decide)).2
      [0, 1, 0, 0, 1, 0] ⟨11, 4⟩ (by decide)⟩

/-- C5: the range comparator orders a time range before another exactly when it ends strictly
before the other starts: for all `TimeRange` `a`, `b`, `a < b` holds iff
`a.m_end < b.m_begin`. -/
theorem C5_timeRange_lt_iff (a b : TimeRange) :
    a.opLt b = true ↔ a.m_end < b.m_begin := by
  simp [TimeRange.opLt]

/-- C6: equal or overlapping ranges are the same key. For all well-formed `TimeRange` `a`, `b`,
neither `a < b` nor `b < a` holds iff the ranges overlap, `a.m_begin <= b.m_end` and
`b.m_begin <= a.m_end`; in particular a range is never ordered before itself. -/
theorem C6_equivalent_iff_overlap (a b : TimeRange) (ha : a.wellFormed) (hb : b.wellFormed) :
    ((a.opLt b = false ∧ b.opLt a = false) ↔
      (a.m_begin ≤ b.m_end ∧ b.m_begin ≤ a.m_end)) ∧
    (a = b → a.opLt b = false ∧ b.opLt a = false) := by
  unfold TimeRange.wellFormed at ha hb
  refine ⟨?_, ?_⟩
  · simp only [TimeRange.opLt, decide_eq_false_iff_not, Nat.not_lt]
    omega
  · intro hab
    subst hab
    simp only [TimeRange.opLt, decide_eq_false_iff_not, Nat.not_lt]
    omega

/-- Witness for C6: the well-formed ranges 10..20 and 15..25 overlap. -/
theorem C6_equivalent_iff_overlap_witness :
    (⟨10, 20⟩ : TimeRange).wellFormed ∧ (⟨15, 25⟩ : TimeRange).wellFormed ∧
    ((⟨10, 20⟩ : TimeRange).opLt ⟨15, 25⟩ = false ∧
      (⟨15, 25⟩ : TimeRange).opLt ⟨10, 20⟩ = false) :=
  ⟨by decide, by decide,
    (C6_equivalent_iff_overlap ⟨10, 20⟩ ⟨15, 25⟩ (by decide) (by decide)).1.2
      ⟨by decide, by decide⟩⟩

/-- C7: two fragments of one thread give two entries when separated by a gap and one entry
when they overlap. For every pair of ranges `a`, `b` (well formed or not) inserted in either
order into an empty `PeriodicUserCallStackMap`, the map ends with two entries if
`a.m_end < b.m_begin` or `b.m_end < a.m_begin` and with exactly one entry otherwise; ranges
10..20 with 25..30 give two, 10..20 with 15..25 give one. -/
theorem C7_two_fragments (a b : TimeRange) (va vb : UserCallStack) :
    ((a.m_end < b.m_begin ∨ b.m_end < a.m_begin) →
      (gtMap.insertAll TimeRange.opLt [(a, va), (b, vb)]).length = 2 ∧
      (gtMap.insertAll TimeRange.opLt [(b, vb), (a, va)]).length = 2) ∧
    (¬ (a.m_end < b.m_begin ∨ b.m_end < a.m_begin) →
      (gtMap.insertAll TimeRange.opLt [(a, va), (b, vb)]).length = 1 ∧
      (gtMap.insertAll TimeRange.opLt [(b, vb), (a, va)]).length = 1) ∧
    (gtMap.insertAll TimeRange.opLt [(⟨10, 20⟩, va), (⟨25, 30⟩, vb)]).length = 2 ∧
    (gtMap.insertAll TimeRange.opLt [(⟨25, 30⟩, vb), (⟨10, 20⟩, va)]).length = 2 ∧
    (gtMap.insertAll TimeRange.opLt [(⟨10, 20⟩, va), (⟨15, 25⟩, vb)]).length = 1 ∧
    (gtMap.insertAll TimeRange.opLt [(⟨15, 25⟩, vb), (⟨10, 20⟩, va)]).length = 1 := by
  have hlen : ∀ (x y : TimeRange) (vx vy : UserCallStack),
      (gtMap.insertAll TimeRange.opLt [(x, vx), (y, vy)]).length =
        if x.m_end < y.m_begin ∨ y.m_end < x.m_begin then 2 else 1 := by
    intro x y vx vy
    simp only [gtMap.insertAll, gtMap.empty, List.foldl_cons, List.foldl_nil, gtMap.insert,
      TimeRange.opLt, decide_eq_true_eq]
    by_cases h1 : x.m_end < y.m_begin
    · simp [h1]
    · by_cases h2 : y.m_end < x.m_begin
      · simp [h1, h2]
      · simp [h1, h2]
  refine ⟨fun h => ?_, fun h => ?_, ?_, ?_, ?_, ?_⟩
  · rw [hlen, hlen, if_pos h, if_pos h.symm]
    exact ⟨rfl, rfl⟩
  · rw [hlen, hlen, if_neg h, if_neg (fun h2 => h h2.symm)]
    exact ⟨rfl, rfl⟩
  all_goals rw [hlen]; decide

/-- C8: the per-thread call-stack map keeps its time ranges non-overlapping and ordered.
Starting from an empty `PeriodicUserCallStackMap`, after every sequence of insertions of
well-formed ranges, any two stored keys `k1`, `k2` adjacent in map order satisfy
`k1.m_end < k2.m_begin`, and all stored ranges are well formed, pairwise disjoint and strictly
increasing. -/
theorem C8_map_ranges_ordered (kvs : List (TimeRange × UserCallStack))
    (hwf : ∀ kv ∈ kvs, kv.1.wellFormed) :
    List.Chain' (fun k1 k2 : TimeRange => k1.m_end < k2.m_begin)
        (gtMap.insertAll TimeRange.opLt kvs).keys ∧
    List.Pairwise
        (fun k1 k2 : TimeRange =>
          k1.m_end < k2.m_begin ∧ k1.m_begin < k2.m_begin ∧ k1.m_end < k2.m_end ∧
            ¬ (k1.m_begin ≤ k2.m_end ∧ k2.m_begin ≤ k1.m_end))
        (gtMap.insertAll TimeRange.opLt kvs).keys ∧
    ∀ k ∈ (gtMap.insertAll TimeRange.opLt kvs).keys, k.wellFormed := by
  obtain ⟨hpw, hall⟩ := gtMap_foldl_insert_inv TimeRange.opLt TimeRange.wellFormed
    TimeRange_opLt_trans kvs hwf gtMap.empty (by simp [gtMap.empty])
    (by simp [gtMap.empty])
  have hkeys : ∀ k ∈ (gtMap.insertAll TimeRange.opLt kvs).keys, k.wellFormed := by
    intro k hk
    simp only [gtMap.keys, List.mem_map] at hk
    obtain ⟨e, he, rfl⟩ := hk
    exact hall e he
  have hpk : List.Pairwise (fun k1 k2 : TimeRange => k1.m_end < k2.m_begin)
      (gtMap.insertAll TimeRange.opLt kvs).keys := by
    simp only [gtMap.keys, List.pairwise_map]
    refine hpw.imp ?_
    intro e1 e2 h
    simpa [TimeRange.opLt] using h
  refine ⟨List.Pairwise.chain' hpk, ?_, hkeys⟩
  refine (List.Pairwise.and_mem.mp hpk).imp ?_
  rintro k1 k2 ⟨h1, h2, h⟩
  have w1 := hkeys k1 h1
  have w2 := hkeys k2 h2
  unfold TimeRange.wellFormed at w1 w2
  omega

/-- Witness for C8: inserting 25..30, 10..20, 15..25 and 40..50 leaves 10..20, 25..30 and
40..50, in that order. -/
theorem C8_map_ranges_ordered_witness :
    (gtMap.insertAll TimeRange.opLt
        [((⟨25, 30⟩ : TimeRange), (⟨0, 0, 0, .KERNEL_TRANSACTION_UNKNOWN⟩ : UserCallStack)),
          (⟨10, 20⟩, ⟨0, 0, 1, .KERNEL_TRANSACTION_UNKNOWN⟩),
          (⟨15, 25⟩, ⟨0, 0, 2, .KERNEL_TRANSACTION_UNKNOWN⟩),
          (⟨40, 50⟩, ⟨0, 0, 3, .KERNEL_TRANSACTION_UNKNOWN⟩)]).keys
      = [⟨10, 20⟩, ⟨25, 30⟩, ⟨40, 50⟩] ∧
    List.Chain' (fun k1 k2 : TimeRange => k1.m_end < k2.m_begin)
      (gtMap.insertAll TimeRange.opLt
        [((⟨25, 30⟩ : TimeRange), (⟨0, 0, 0, .KERNEL_TRANSACTION_UNKNOWN⟩ : UserCallStack)),
          (⟨10, 20⟩, ⟨0, 0, 1, .KERNEL_TRANSACTION_UNKNOWN⟩),
          (⟨15, 25⟩, ⟨0, 0, 2, .KERNEL_TRANSACTION_UNKNOWN⟩),
          (⟨40, 50⟩, ⟨0, 0, 3, .KERNEL_TRANSACTION_UNKNOWN⟩)]).keys :=
  ⟨by decide, (C8_map_ranges_ordered _ (by decide)).1⟩

/-- C9: lookup by time stamp finds the range that contains it. For every
`PeriodicUserCallStackMap` whose keys are well formed and pairwise ordered by `operator<`, and
every time stamp `t`, a find with the point key `TimeRange{t, t}` returns the entry whose key
satisfies `m_begin <= t <= m_end` when such an entry exists (there is at most one) and returns
not-found otherwise. -/
theorem C9_find_by_timestamp (m : PeriodicUserCallStackMap) (t : Nat)
    (hwf : ∀ e ∈ m, e.1.wellFormed)
    (hord : m.Pairwise fun e1 e2 => e1.1.opLt e2.1 = true) :
    (∀ e ∈ m, e.1.m_begin ≤ t ∧ t ≤ e.1.m_end →
      gtMap.find TimeRange.opLt (TimeRange.point t) m = some e) ∧
    (∀ e1 ∈ m, ∀ e2 ∈ m, e1.1.m_begin ≤ t ∧ t ≤ e1.1.m_end →
      e2.1.m_begin ≤ t ∧ t ≤ e2.1.m_end → e1 = e2) ∧
    ((∀ e ∈ m, ¬ (e.1.m_begin ≤ t ∧ t ≤ e.1.m_end)) →
      gtMap.find TimeRange.opLt (TimeRange.point t) m = none) ∧
    (∀ e, gtMap.find TimeRange.opLt (TimeRange.point t) m = some e →
      e ∈ m ∧ e.1.m_begin ≤ t ∧ t ≤ e.1.m_end) := by
  have key := gtMap_find_point_iff m t hwf hord
  refine ⟨fun e he hc => (key e).mpr ⟨he, hc⟩, fun e1 h1 e2 h2 c1 c2 => ?_, fun hnone => ?_,
    fun e he => (key e).mp he⟩
  · have a1 := (key e1).mpr ⟨h1, c1⟩
    have a2 := (key e2).mpr ⟨h2, c2⟩
    rw [a1] at a2
    exact Option.some.inj a2
  · cases hf : gtMap.find TimeRange.opLt (TimeRange.point t) m with
    | none => rfl
    | some e =>
      obtain ⟨he, hc⟩ := (key e).mp hf
      exact absurd hc (hnone e he)

/-- Witness for C9: in the map with the ranges 10..20 and 25..30, time stamp 27 is found in
25..30 and time stamp 22 is not found. -/
theorem C9_find_by_timestamp_witness :
    gtMap.find TimeRange.opLt (TimeRange.point 27)
        [((⟨10, 20⟩ : TimeRange), (⟨0, 0, 0, .KERNEL_TRANSACTION_TRUE⟩ : UserCallStack)),
          (⟨25, 30⟩, ⟨0, 0, 1, .KERNEL_TRANSACTION_FALSE⟩)]
      = some (⟨25, 30⟩, ⟨0, 0, 1, .KERNEL_TRANSACTION_FALSE⟩) ∧
    gtMap.find TimeRange.opLt (TimeRange.point 22)
        [((⟨10, 20⟩ : TimeRange), (⟨0, 0, 0, .KERNEL_TRANSACTION_TRUE⟩ : UserCallStack)),
          (⟨25, 30⟩, ⟨0, 0, 1, .KERNEL_TRANSACTION_FALSE⟩)]
      = none :=
  ⟨(C9_find_by_timestamp
      [(⟨10, 20⟩, ⟨0, 0, 0, .KERNEL_TRANSACTION_TRUE⟩),
        (⟨25, 30⟩, ⟨0, 0, 1, .KERNEL_TRANSACTION_FALSE⟩)] 27
      (by decide) (by decide)).1 (⟨25, 30⟩, ⟨0, 0, 1, .KERNEL_TRANSACTION_FALSE⟩)
      (by decide) (by decide),
    by decide⟩

/-- C10: a (process id, load address) pair identifies exactly one map key.
`PidModaddrKey::operator<` is a strict total order, lexicographic by `pid` then `modLdAddr`:
irreflexive, transitive, and for all keys `a`, `b` exactly one of `a < b`, `b < a`, or
`a.pid = b.pid` and `a.modLdAddr = b.modLdAddr` holds. So a `PidModaddrItrMap` built by
insertions holds at most one entry per (pid, load address), and every inserted pair has its
own entry: distinct pairs never collide. -/
theorem C10_pidModaddrKey_strict_total_order :
    (∀ a b : PidModaddrKey, a.opLt b = true ↔
      (a.pid < b.pid ∨ (a.pid = b.pid ∧ a.modLdAddr < b.modLdAddr))) ∧
    (∀ a : PidModaddrKey, a.opLt a = false) ∧
    (∀ a b c : PidModaddrKey, a.opLt b = true → b.opLt c = true → a.opLt c = true) ∧
    (∀ a b : PidModaddrKey,
      (a.opLt b = true ∧ b.opLt a = false ∧ ¬ (a.pid = b.pid ∧ a.modLdAddr = b.modLdAddr)) ∨
      (a.opLt b = false ∧ b.opLt a = true ∧ ¬ (a.pid = b.pid ∧ a.modLdAddr = b.modLdAddr)) ∨
      (a.opLt b = false ∧ b.opLt a = false ∧ a.pid = b.pid ∧ a.modLdAddr = b.modLdAddr)) ∧
    (∀ (V : Type) (kvs : List (PidModaddrKey × V)),
      (gtMap.insertAll PidModaddrKey.opLt kvs).keys.Nodup ∧
      ∀ k : PidModaddrKey,
        k ∈ (gtMap.insertAll PidModaddrKey.opLt kvs).keys ↔ k ∈ kvs.map Prod.fst) := by
  refine ⟨PidModaddrKey_opLt_iff, fun a => ?_, PidModaddrKey_opLt_trans, fun a b => ?_,
    fun V kvs => ⟨?_, fun k => ?_⟩⟩
  · rw [← Bool.not_eq_true, PidModaddrKey_opLt_iff]
    omega
  · simp only [← Bool.not_eq_true, PidModaddrKey_opLt_iff]
    omega
  · have hpw := (gtMap_foldl_insert_inv PidModaddrKey.opLt (fun _ => True)
      (fun a b c _ => PidModaddrKey_opLt_trans a b c) kvs (fun _ _ => trivial)
      (gtMap.empty : gtMap PidModaddrKey V) (fun _ _ => trivial) (by simp [gtMap.empty])).1
    have hpk : List.Pairwise (fun k1 k2 : PidModaddrKey => k1.opLt k2 = true)
        (gtMap.insertAll PidModaddrKey.opLt kvs).keys := by
      simp only [gtMap.keys, List.pairwise_map]
      exact hpw
    refine hpk.imp ?_
    intro k1 k2 h heq
    subst heq
    rw [PidModaddrKey_opLt_iff] at h
    omega
  · have h := gtMap_keys_foldl_insert PidModaddrKey.opLt PidModaddrKey_eq_of_not_lt kvs
      (gtMap.empty : gtMap PidModaddrKey V) k
    simpa [gtMap.insertAll, gtMap.empty, gtMap.keys] using h

/-- C11 (the code at a failing input): `InitializeGraphics` returns `true` exactly when both
surface extensions were found and the last call, `vkCreateSwapchainKHR`, returned
`VK_SUCCESS`; the results of the calls before it are overwritten. In the run where only the
filling call of `vkGetPhysicalDeviceSurfacePresentModesKHR` fails it returns `true`, though
its documentation says `false if failure`. -/
theorem C11_InitializeGraphics_true_after_failed_call :
    (∀ (names : VulkanNames) (target : BuildTarget) (drv : VulkanDriver) (s : VulkanState),
      (InitializeGraphics names target drv s).retVal = true ↔
        (names.VK_KHR_SURFACE_EXTENSION_NAME ∈ drv.instExts ∧
          platformSurfaceExtensionName names target ∈ drv.instExts ∧
          drv.createSwapchainResult = VkResult.VK_SUCCESS)) ∧
    (InitializeGraphics vulkanHeaderNames .WIN32 presentModesFailDriver
        VulkanState.initial).retVal = true ∧
    (VkCall.vkGetPhysicalDeviceSurfacePresentModesKHR, VkResult.other (-1)) ∈
      (InitializeGraphics vulkanHeaderNames .WIN32 presentModesFailDriver
        VulkanState.initial).calls :=
  ⟨InitializeGraphics_retVal_iff, by decide, by decide⟩

/-- C12: `InitializeGraphics` fails when a required surface extension is absent. For every
enumerated instance extension list that does not contain `VK_KHR_SURFACE_EXTENSION_NAME`, or
does not contain the platform surface extension name, it returns `false`, and it does so
before `vkCreateInstance` is called; `initComplete` is left as it was. -/
theorem C12_missing_surface_extension (names : VulkanNames) (target : BuildTarget)
    (drv : VulkanDriver) (s : VulkanState)
    (h : names.VK_KHR_SURFACE_EXTENSION_NAME ∉ drv.instExts ∨
      platformSurfaceExtensionName names target ∉ drv.instExts) :
    (InitializeGraphics names target drv s).retVal = false ∧
    (∀ c ∈ (InitializeGraphics names target drv s).calls, c.1 ≠ VkCall.vkCreateInstance) ∧
    (InitializeGraphics names target drv s).state.initComplete = s.initComplete := by
  obtain ⟨h1, h2⟩ := enumerateInstanceExtensions_flags names target drv
  have hcalls := enumerateInstanceExtensions_calls names target drv
  have hne : ∀ c ∈ (enumerateInstanceExtensions names target drv).1.calls,
      c.1 ≠ VkCall.vkCreateInstance := by
    intro c hc
    rw [hcalls c hc]
    decide
  unfold InitializeGraphics
  simp only [h1, h2]
  by_cases hs : names.VK_KHR_SURFACE_EXTENSION_NAME ∈ drv.instExts
  · have hp : platformSurfaceExtensionName names target ∉ drv.instExts := by
      rcases h with h | h
      · exact absurd hs h
      · exact h
    simp only [hs, hp, decide_True, decide_False, Bool.not_true, Bool.not_false,
      Bool.false_eq_true, if_false, if_true]
    exact ⟨trivial, hne, trivial⟩
  · simp only [hs, decide_False, Bool.not_false, if_true]
    exact ⟨trivial, hne, trivial⟩

/-- Witness for C12: on `WIN32`, with the instance extensions `VK_KHR_surface` and
`VK_EXT_debug_report`, the Win32 surface extension is absent and the function returns
`false`. -/
theorem C12_missing_surface_extension_witness :
    (InitializeGraphics vulkanHeaderNames .WIN32 noPlatformSurfaceDriver
      VulkanState.initial).retVal = false :=
  (C12_missing_surface_extension vulkanHeaderNames .WIN32 noPlatformSurfaceDriver
    VulkanState.initial (Or.inr (by decide))).1

/-- C13: the XCB surface helper accepts exactly its own extension name. For every string `s`,
`VulkanSurfaceXCB::IsSurfaceExtension(s)` is true iff `s` equals
`VK_KHR_XCB_SURFACE_EXTENSION_NAME`, and `IsSurfaceExtension(GetSurfaceExtensionName())` is
true. -/
theorem C13_xcb_surface_extension (names : VulkanNames) :
    (∀ s : String, VulkanSurfaceXCB.IsSurfaceExtension names s = true ↔
      s = names.VK_KHR_XCB_SURFACE_EXTENSION_NAME) ∧
    VulkanSurfaceXCB.IsSurfaceExtension names
      (VulkanSurfaceXCB.GetSurfaceExtensionName names) = true :=
  ⟨IsSurfaceExtension_iff names,
    (IsSurfaceExtension_iff names _).mpr rfl⟩

/-- C14: `SharedMenuActions::actionText` covers exactly the created actions. For every
`actionIndex` with `COUNT_OF_STATIC_PM_MENUS <= actionIndex < numberActions()` it returns
`true`, with the caption taken from `profiles()[actionIndex - COUNT_OF_STATIC_PM_MENUS]`
(passed through `addAccelerator`) and the tooltip `Select a profile`; for every
`actionIndex >= numberActions()` it returns `false` and leaves caption and tooltip
unchanged. -/
theorem C14_actionText_dynamic_range (env : MenuEnv) (mgr : SharedProfileManager)
    (actionIndex : Int) (caption tooltip : String) :
    (env.COUNT_OF_STATIC_PM_MENUS ≤ actionIndex → actionIndex < numberActions env mgr →
      (actionText env mgr actionIndex caption tooltip).retVal = true ∧
      (∃ profile : String,
        mgr.profiles[(actionIndex - env.COUNT_OF_STATIC_PM_MENUS).toNat]? = some profile ∧
        (actionText env mgr actionIndex caption tooltip).caption =
          addAccelerator env profile) ∧
      (actionText env mgr actionIndex caption tooltip).tooltip = "Select a profile" ∧
      (actionText env mgr actionIndex caption tooltip).assertion = none) ∧
    (numberActions env mgr ≤ actionIndex →
      (actionText env mgr actionIndex caption tooltip).retVal = false ∧
      (actionText env mgr actionIndex caption tooltip).caption = caption ∧
      (actionText env mgr actionIndex caption tooltip).tooltip = tooltip) := by
  unfold numberActions
  constructor
  · intro hlo hhi
    have h1 : ¬ actionIndex < env.COUNT_OF_STATIC_PM_MENUS := by omega
    have hidx : (actionIndex - env.COUNT_OF_STATIC_PM_MENUS).toNat < mgr.profiles.length := by
      omega
    simp only [actionText, if_neg h1, if_pos hhi]
    refine ⟨trivial, ⟨mgr.profiles[(actionIndex - env.COUNT_OF_STATIC_PM_MENUS).toNat], ?_, ?_⟩,
      trivial, trivial⟩
    · exact List.getElem?_eq_getElem hidx
    · simp [List.getD_eq_getElem?_getD, List.getElem?_eq_getElem hidx]
  · intro hge
    have h1 : ¬ actionIndex < env.COUNT_OF_STATIC_PM_MENUS := by omega
    have h2 : ¬ actionIndex < (mgr.profiles.length : Int) + env.COUNT_OF_STATIC_PM_MENUS := by
      omega
    simp only [actionText, if_neg h1, if_neg h2]
    exact ⟨trivial, trivial, trivial⟩

/-- Witness for C14: with six static commands and two profiles, action 6 is the first profile
and gets its caption with the accelerator; action 8 is not an action. -/
theorem C14_actionText_dynamic_range_witness :
    (actionText exampleMenuEnv exampleProfileManager 6 "c" "t").retVal = true ∧
    (actionText exampleMenuEnv exampleProfileManager 6 "c" "t").caption
      = "&Time-based Sampling" ∧
    (actionText exampleMenuEnv exampleProfileManager 8 "c" "t").retVal = false :=
  ⟨((C14_actionText_dynamic_range exampleMenuEnv exampleProfileManager 6 "c" "t").1
      (by decide) (by decide)).1,
    by decide,
    ((C14_actionText_dynamic_range exampleMenuEnv exampleProfileManager 8 "c" "t").2
      (by decide)).1⟩

/-- C15: the display settings dialog cannot be accepted with no core selected. For every
dialog state with a non-null data reader and session item in which no core check box is
checked, `onClickOk` shows the error `At least one core must be selected to view...` (after
the column error and a line break when that one is due as well) and returns without calling
`accept()`. -/
theorem C15_no_core_selected (target : BuildTarget) (ulongBits : Nat) (d : DisplayFilterDlg)
    (hreader : d.m_pProfDataReader = true) (hitem : d.m_pSessionTreeItemData = true)
    (hnone : ∀ i, i < d.m_noOfCores → d.m_pCheckBoxCore.getD i false = false) :
    ∃ (d' : DisplayFilterDlg) (effects : List DlgEffect) (message : String),
      onClickOk target ulongBits d =
        .ok (d', effects ++ [DlgEffect.critical "CodeXL Error" message]) ∧
      (message = coreErrorText ∨ message = columnErrorText ++ "\n" ++ coreErrorText) ∧
      DlgEffect.accept ∉ effects ++ [DlgEffect.critical "CodeXL Error" message] := by
  have hloop := coreLoop_none_checked d (List.range d.m_noOfCores)
    { coreMask := [], atLeastOneCore := false }
    (fun i hi => hnone i (List.mem_range.mp hi))
  obtain ⟨d', names, col, hcheck⟩ := checkAndApply_no_core target d
    { coreMask := [], atLeastOneCore := false } 0 rfl
  refine ⟨d', [DlgEffect.SetCoreMask 0, DlgEffect.SetSelectedCounterList names],
    errorMessage col false, ?_, ?_, ?_⟩
  · simp only [onClickOk, hreader, hitem, Bool.and_self, if_true, hloop, to_ulong, List.all_nil,
      List.map_nil, List.sum_nil, hcheck, List.cons_append, List.nil_append]
  · cases col
    · exact Or.inr (by decide)
    · exact Or.inl (by decide)
  · simp

/-- Witness for C15: with two cores, none of them checked, and both columns checked, the core
error is shown and the dialog is not accepted. -/
theorem C15_no_core_selected_witness :
    effectsOf (onClickOk .WIN32 32 noCoreDialog) =
      [DlgEffect.SetCoreMask 0,
        DlgEffect.SetSelectedCounterList ["CPU clocks", "Retired instructions"],
        DlgEffect.critical "CodeXL Error" "At least one core must be selected to view..."] ∧
    ∃ (d' : DisplayFilterDlg) (effects : List DlgEffect) (message : String),
      onClickOk .WIN32 32 noCoreDialog =
        .ok (d', effects ++ [DlgEffect.critical "CodeXL Error" message]) ∧
      (message = coreErrorText ∨ message = columnErrorText ++ "\n" ++ coreErrorText) ∧
      DlgEffect.accept ∉ effects ++ [DlgEffect.critical "CodeXL Error" message] :=
  ⟨by decide, C15_no_core_selected .WIN32 32 noCoreDialog rfl rfl (by decide)⟩

/-- C16 (the code at a failing input): with a core checked and every column box unchecked,
`onClickOk` shows no error and calls `accept()`. Whether the column error is raised depends
on the size of `m_selectedCounters` alone, a list that `updateHiddenColumnList` does not
fill: whenever that size differs from `m_noOfColumn` and a core is checked, the dialog is
accepted whatever the column boxes say. -/
theorem C16_no_column_selected_accepted :
    (∀ b ∈ noColumnDialog.m_pCheckBoxColumns, b.2 = false) ∧
    0 < noColumnDialog.m_noOfColumn ∧
    effectsOf (onClickOk .WIN32 32 noColumnDialog) =
      [DlgEffect.SetCoreMask 1, DlgEffect.SetSelectedCounterList [],
        DlgEffect.setIgnoreSysDLL false, DlgEffect.SetReportConfig, DlgEffect.accept] ∧
    (∀ (target : BuildTarget) (d : DisplayFilterDlg) (scan : CoreScan) (mask : Nat),
      scan.atLeastOneCore = true → d.m_selectedCounters.length ≠ d.m_noOfColumn →
        DlgEffect.accept ∈ (checkAndApply target d scan mask).2 ∧
        ∀ title message,
          DlgEffect.critical title message ∉ (checkAndApply target d scan mask).2) :=
  ⟨by decide, by decide, by decide, checkAndApply_accepts⟩

/-- C17: ranges that only touch are treated as the same stack event. For all well-formed
`TimeRange` `a`, `b` with `a.m_end = b.m_begin`, neither `a < b` nor `b < a` holds, so an
insertion of `b` into a `PeriodicUserCallStackMap` that already holds `a` adds no entry; the
ranges 10..20 and 20..30 give one entry. -/
theorem C17_touching_ranges (a b : TimeRange) (ha : a.wellFormed) (hb : b.wellFormed)
    (htouch : a.m_end = b.m_begin) :
    a.opLt b = false ∧ b.opLt a = false ∧
    (∀ (m : PeriodicUserCallStackMap) (vb : UserCallStack),
      (∀ e ∈ m, e.1.wellFormed) → (m.Pairwise fun e1 e2 => e1.1.opLt e2.1 = true) →
      a ∈ m.keys → gtMap.insert TimeRange.opLt (b, vb) m = m) ∧
    (∀ va vb : UserCallStack,
      (gtMap.insertAll TimeRange.opLt [(a, va), (b, vb)]).length = 1 ∧
      (gtMap.insertAll TimeRange.opLt [(b, vb), (a, va)]).length = 1) ∧
    (∀ va vb : UserCallStack,
      (gtMap.insertAll TimeRange.opLt [(⟨10, 20⟩, va), (⟨20, 30⟩, vb)]).length = 1) := by
  unfold TimeRange.wellFormed at ha hb
  have hab : a.opLt b = false := by
    simp only [TimeRange.opLt, decide_eq_false_iff_not]
    omega
  have hba : b.opLt a = false := by
    simp only [TimeRange.opLt, decide_eq_false_iff_not]
    omega
  refine ⟨hab, hba, ?_, ?_, ?_⟩
  · intro m vb hwf hord hmem
    simp only [gtMap.keys, List.mem_map] at hmem
    obtain ⟨e, he, hea⟩ := hmem
    exact gtMap_insert_of_equiv m (b, vb) hwf hord e he (by rw [hea]; exact hba)
      (by rw [hea]; exact hab)
  · intro va vb
    simp [gtMap.insertAll, gtMap.empty, gtMap.insert, hab, hba]
  · intro va vb
    simp [gtMap.insertAll, gtMap.empty, gtMap.insert, TimeRange.opLt]

/-- Witness for C17: 10..20 and 20..30 touch; inserting 20..30 into the map that holds 10..20
and 40..50 leaves the map as it is. -/
theorem C17_touching_ranges_witness :
    gtMap.insert TimeRange.opLt
        ((⟨20, 30⟩ : TimeRange), (⟨0, 0, 2, .KERNEL_TRANSACTION_UNKNOWN⟩ : UserCallStack))
        [(⟨10, 20⟩, ⟨0, 0, 0, .KERNEL_TRANSACTION_TRUE⟩),
          (⟨40, 50⟩, ⟨0, 0, 1, .KERNEL_TRANSACTION_FALSE⟩)]
      = [(⟨10, 20⟩, ⟨0, 0, 0, .KERNEL_TRANSACTION_TRUE⟩),
          (⟨40, 50⟩, ⟨0, 0, 1, .KERNEL_TRANSACTION_FALSE⟩)] :=
  (C17_touching_ranges ⟨10, 20⟩ ⟨20, 30⟩ (by decide) (by decide) rfl).2.2.1
    [(⟨10, 20⟩, ⟨0, 0, 0, .KERNEL_TRANSACTION_TRUE⟩),
      (⟨40, 50⟩, ⟨0, 0, 1, .KERNEL_TRANSACTION_FALSE⟩)]
    ⟨0, 0, 2, .KERNEL_TRANSACTION_UNKNOWN⟩ (by decide) (by decide) (by decide)

/-- C18: a `StatValue` is a (sum, number of samples) pair. For every sequence `v1..vn` of
unsigned values, a freshly constructed `StatValue` after `Add(v1)`, ..., `Add(vn)` has
`count = n mod 2^32` and `value = (v1 + ... + vn) mod 2^32`, and a freshly constructed
`StatValue` has value 0 and count 0. -/
theorem C18_statValue_sum_and_count (vs : List Nat) :
    (vs.foldl StatValue.AddVal StatValue.fresh).count = vs.length % 2 ^ 32 ∧
    (vs.foldl StatValue.AddVal StatValue.fresh).value = vs.sum % 2 ^ 32 ∧
    StatValue.fresh.value = 0 ∧ StatValue.fresh.count = 0 := by
  have h := addAll_eq vs
  unfold StatValue.addAll at h
  rw [h]
  exact ⟨rfl, rfl, rfl, rfl⟩

/-- C19: every supported command is handled. For each of the six command ids registered by
`populateSupportedCommandIds`, whenever `actionIndexToCommandId` yields that id for a static
`actionIndex`, `actionText` returns `true` and none of the switches in `actionText`,
`menuPosition`, `handleTrigger` and `handleUiUpdate` reaches its default branch with the
failed assertion. -/
theorem C19_supported_commands_handled (env : MenuEnv) (mgr : SharedProfileManager)
    (actionIndex : Int) (caption tooltip : String) (positionData : afActionPositionData)
    (hstatic : actionIndex < env.COUNT_OF_STATIC_PM_MENUS)
    (hid : env.actionIndexToCommandId actionIndex ∈ populateSupportedCommandIds env.ids []) :
    (actionText env mgr actionIndex caption tooltip).retVal = true ∧
    (actionText env mgr actionIndex caption tooltip).assertion = none ∧
    (menuPosition env mgr actionIndex positionData).assertion = none ∧
    (handleTrigger env mgr actionIndex).assertion = none ∧
    (handleUiUpdate env mgr actionIndex).assertion = none := by
  simp only [populateSupportedCommandIds, List.nil_append, List.mem_cons, List.mem_singleton,
    List.not_mem_nil, or_false] at hid
  refine ⟨?_, ?_, ?_, ?_, ?_⟩
  · simp only [actionText, if_pos hstatic]
    split_ifs <;> first | rfl | (exfalso; tauto)
  · simp only [actionText, if_pos hstatic]
    split_ifs <;> first | rfl | (exfalso; tauto)
  · simp only [menuPosition, if_pos hstatic]
    split_ifs <;> first | rfl | (exfalso; tauto)
  · simp only [handleTrigger]
    cases env.action actionIndex with
    | none => rfl
    | some t =>
      simp only [if_pos hstatic]
      split_ifs <;> first | rfl | (exfalso; tauto)
  · simp only [handleUiUpdate]
    cases env.action actionIndex with
    | none => rfl
    | some t =>
      simp only [if_pos hstatic]
      split_ifs <;> first | rfl | (exfalso; tauto)

/-- Witness for C19: in the example environment the static action 1 is the pause command. -/
theorem C19_supported_commands_handled_witness :
    (actionText exampleMenuEnv exampleProfileManager 1 "" "").retVal = true ∧
    (actionText exampleMenuEnv exampleProfileManager 1 "" "").caption = "Pause" ∧
    (handleTrigger exampleMenuEnv exampleProfileManager 1).calls = [.onPauseToggle] ∧
    (handleUiUpdate exampleMenuEnv exampleProfileManager 1).assertion = none :=
  ⟨(C19_supported_commands_handled exampleMenuEnv exampleProfileManager 1 "" ""
      ⟨.AF_SEPARATOR_NONE, "", ""⟩ (by decide) (by decide)).1,
    by decide, by decide,
    (C19_supported_commands_handled exampleMenuEnv exampleProfileManager 1 "" ""
      ⟨.AF_SEPARATOR_NONE, "", ""⟩ (by decide) (by decide)).2.2.2.2⟩

/-- C20 (the code at a failing input): when both surface extensions are found,
`InitializeGraphics` sets `s_vkState.initComplete = true` before it looks at the result of
`vkCreateSwapchainKHR`. In the run where that call fails it returns `false` with
`initComplete` `true`, and the next `WM_PAINT` makes `VulkanWindowProc` call
`VulkanPlayer::Present()`. After `Destroy`, `WM_PAINT` does not call it. -/
theorem C20_initComplete_after_failed_init :
    (InitializeGraphics vulkanHeaderNames .WIN32 swapchainFailDriver
        VulkanState.initial).retVal = false ∧
    (InitializeGraphics vulkanHeaderNames .WIN32 swapchainFailDriver
        VulkanState.initial).state.initComplete = true ∧
    WindowEffect.Present ∈
      VulkanWindowProc
        (InitializeGraphics vulkanHeaderNames .WIN32 swapchainFailDriver
          VulkanState.initial).state .WM_PAINT ∧
    (∀ (names : VulkanNames) (target : BuildTarget) (drv : VulkanDriver) (s : VulkanState),
      names.VK_KHR_SURFACE_EXTENSION_NAME ∈ drv.instExts →
      platformSurfaceExtensionName names target ∈ drv.instExts →
      (InitializeGraphics names target drv s).state.initComplete = true) ∧
    (∀ s : VulkanState, WindowEffect.Present ∉ VulkanWindowProc (Destroy s) .WM_PAINT) :=
  ⟨by decide, by decide, by decide, InitializeGraphics_initComplete,
    fun s => by simp [VulkanWindowProc, Destroy]⟩

/-- C21: the stats merge is commutative, so worker results may be merged in any order. For
all `PrdTranslationStats` `a` and `b`, the result of `a += b` equals the result of `b += a`
in every stage's value and count; the same holds for `StatValue::operator+=` on a single
stage. -/
theorem C21_opAddAssign_comm (a b : PrdTranslationStats) :
    a.opAddAssign b = b.opAddAssign a ∧
    (∀ i : Fin COUNT_VALUES,
      ((a.opAddAssign b).m_values i).value = ((b.opAddAssign a).m_values i).value ∧
      ((a.opAddAssign b).m_values i).count = ((b.opAddAssign a).m_values i).count) ∧
    ∀ s t : StatValue, s.opAddAssign t = t.opAddAssign s := by
  have key : ∀ i : Fin COUNT_VALUES,
      (a.opAddAssign b).m_values i = (b.opAddAssign a).m_values i := by
    intro i
    rw [opAddAssign_apply, opAddAssign_apply, StatValue_Add_comm]
  refine ⟨?_, fun i => ⟨by rw [key i], by rw [key i]⟩,
    fun s t => StatValue_Add_comm s t⟩
  have hfun : (a.opAddAssign b).m_values = (b.opAddAssign a).m_values := funext key
  cases h1 : a.opAddAssign b
  cases h2 : b.opAddAssign a
  rw [h1, h2] at hfun
  simpa using hfun
